import Mathlib

set_option maxHeartbeats 1600000

/- Shallow embedding of the btfdump C header dumper, from src/types.rs and
   src/c_dumper.rs. Machine integers (u32, u8) are modelled as Nat; the
   values involved in the claims stay far below the wrap boundary, and the
   places where Rust would panic (division by zero in a modulus, index out
   of range) are noted at the corresponding definitions. The per-type
   mutable state of the dumper is modelled as functions from type id, and
   printing is modelled as an accumulated list of output events. Recursive
   walks over the (possibly cyclic) type graph take an explicit fuel
   argument; running out of fuel is a distinguished error. -/

namespace Btfdump

/- Data model, mirroring the BtfType enum of src/types.rs. -/

inductive BtfIntEncoding where
  | None
  | Signed
  | Char
  | Bool
deriving DecidableEq

structure BtfInt where
  name : String
  bits : Nat
  offset : Nat
  encoding : BtfIntEncoding
deriving DecidableEq

structure BtfPtr where
  type_id : Nat
deriving DecidableEq

structure BtfArray where
  nelems : Nat
  idx_type_id : Nat
  val_type_id : Nat
deriving DecidableEq

structure BtfMember where
  name : String
  type_id : Nat
  bit_offset : Nat
  bit_size : Nat
deriving DecidableEq

structure BtfStruct where
  name : String
  sz : Nat
  members : List BtfMember
deriving DecidableEq

structure BtfUnion where
  name : String
  sz : Nat
  members : List BtfMember
deriving DecidableEq

structure BtfEnumValue where
  name : String
  value : Int
deriving DecidableEq

structure BtfEnum where
  name : String
  sz_bits : Nat
  values : List BtfEnumValue
deriving DecidableEq

inductive BtfFwdKind where
  | Struct
  | Union
deriving DecidableEq

structure BtfFwd where
  name : String
  kind : BtfFwdKind
deriving DecidableEq

structure BtfTypedef where
  name : String
  type_id : Nat
deriving DecidableEq

structure BtfVolatile where
  type_id : Nat
deriving DecidableEq

structure BtfConst where
  type_id : Nat
deriving DecidableEq

structure BtfRestrict where
  type_id : Nat
deriving DecidableEq

structure BtfFunc where
  name : String
  proto_type_id : Nat
deriving DecidableEq

structure BtfFuncParam where
  name : String
  type_id : Nat
deriving DecidableEq

structure BtfFuncProto where
  res_type_id : Nat
  params : List BtfFuncParam
deriving DecidableEq

inductive BtfVarKind where
  | Static
  | GlobalAlloc
deriving DecidableEq

structure BtfVar where
  name : String
  type_id : Nat
  kind : BtfVarKind
deriving DecidableEq

structure BtfDatasecVar where
  type_id : Nat
  offset : Nat
  sz : Nat
deriving DecidableEq

structure BtfDatasec where
  name : String
  sz : Nat
  vars : List BtfDatasecVar
deriving DecidableEq

inductive BtfType where
  | Void
  | Int (t : BtfInt)
  | Ptr (t : BtfPtr)
  | Array (t : BtfArray)
  | Struct (t : BtfStruct)
  | Union (t : BtfUnion)
  | Enum (t : BtfEnum)
  | Fwd (t : BtfFwd)
  | Typedef (t : BtfTypedef)
  | Volatile (t : BtfVolatile)
  | Const (t : BtfConst)
  | Restrict (t : BtfRestrict)
  | Func (t : BtfFunc)
  | FuncProto (t : BtfFuncProto)
  | Var (t : BtfVar)
  | Datasec (t : BtfDatasec)
deriving DecidableEq

/- The type graph; ids index the vector of types. Out-of-range ids resolve
   to Void here, where the Rust source would panic on the index. -/
structure Btf where
  types : List BtfType
  ptr_sz : Nat
deriving DecidableEq

def Btf.type_by_id (btf : Btf) (type_id : Nat) : BtfType :=
  btf.types.getD type_id BtfType.Void

def Btf.type_cnt (btf : Btf) : Nat := btf.types.length

/- get_size_of from types.rs, with fuel for the recursion through the graph. -/
def Btf.get_size_of (btf : Btf) : Nat → Nat → Nat
  | 0, _ => 0
  | fuel+1, type_id =>
    match btf.type_by_id type_id with
    | BtfType.Void => 0
    | BtfType.Int t => (t.bits + 7) / 8
    | BtfType.Volatile t => btf.get_size_of fuel t.type_id
    | BtfType.Const t => btf.get_size_of fuel t.type_id
    | BtfType.Restrict t => btf.get_size_of fuel t.type_id
    | BtfType.Ptr _ => btf.ptr_sz
    | BtfType.Array t => t.nelems * btf.get_size_of fuel t.val_type_id
    | BtfType.FuncProto _ => 0
    | BtfType.Struct t => t.sz
    | BtfType.Union t => t.sz
    | BtfType.Enum t => (t.sz_bits + 7) / 8
    | BtfType.Fwd _ => 0
    | BtfType.Typedef t => btf.get_size_of fuel t.type_id
    | BtfType.Func _ => 0
    | BtfType.Var _ => 0
    | BtfType.Datasec t => t.sz

/- get_align_of from types.rs; the struct and union cases fold max over the
   member alignments starting from 1. -/
mutual

def Btf.get_align_of (btf : Btf) : Nat → Nat → Nat
  | 0, _ => 0
  | fuel+1, type_id =>
    match btf.type_by_id type_id with
    | BtfType.Void => 0
    | BtfType.Int t => min btf.ptr_sz ((t.bits + 7) / 8)
    | BtfType.Volatile t => btf.get_align_of fuel t.type_id
    | BtfType.Const t => btf.get_align_of fuel t.type_id
    | BtfType.Restrict t => btf.get_align_of fuel t.type_id
    | BtfType.Ptr _ => btf.ptr_sz
    | BtfType.Array t => btf.get_align_of fuel t.val_type_id
    | BtfType.FuncProto _ => 0
    | BtfType.Struct t => btf.align_fold fuel (t.members.map (fun m => m.type_id)) 1
    | BtfType.Union t => btf.align_fold fuel (t.members.map (fun m => m.type_id)) 1
    | BtfType.Enum t => min btf.ptr_sz ((t.sz_bits + 7) / 8)
    | BtfType.Fwd _ => 0
    | BtfType.Typedef t => btf.get_align_of fuel t.type_id
    | BtfType.Func _ => 0
    | BtfType.Var _ => 0
    | BtfType.Datasec _ => 0

def Btf.align_fold (btf : Btf) : Nat → List Nat → Nat → Nat
  | _, [], acc => acc
  | 0, _ :: _, acc => acc
  | fuel+1, tid :: rest, acc =>
    btf.align_fold (fuel+1) rest (max acc (btf.get_align_of fuel tid))

end

/- Display formatting from types.rs, used verbatim inside error messages. -/

def sq : String := String.singleton (Char.ofNat 39)

def disp_name (s : String) : String := if s == "" then "<anon>" else s

def idx02 (n : Nat) : String := if n < 10 then "0" ++ toString n else toString n

def disp_list {α : Type} (f : α → String) (xs : List α) : String :=
  String.join ((xs.enum).map (fun p => "\n\t#" ++ idx02 p.1 ++ " " ++ f p.2))

def disp_int_encoding : BtfIntEncoding → String
  | BtfIntEncoding.None => "none"
  | BtfIntEncoding.Signed => "signed"
  | BtfIntEncoding.Char => "char"
  | BtfIntEncoding.Bool => "bool"

def disp_member (m : BtfMember) : String :=
  sq ++ disp_name m.name ++ sq ++ " off:" ++ toString m.bit_offset ++
    (if m.bit_size ≠ 0 then " sz:" ++ toString m.bit_size else "") ++
    " --> [" ++ toString m.type_id ++ "]"

def disp_enum_value (v : BtfEnumValue) : String :=
  disp_name v.name ++ " = " ++ toString v.value

def disp_func_param (p : BtfFuncParam) : String :=
  sq ++ disp_name p.name ++ sq ++ " --> [" ++ toString p.type_id ++ "]"

def disp_datasec_var (v : BtfDatasecVar) : String :=
  "off:" ++ toString v.offset ++ " sz:" ++ toString v.sz ++
    " --> [" ++ toString v.type_id ++ "]"

def disp_var_kind : BtfVarKind → String
  | BtfVarKind.Static => "static"
  | BtfVarKind.GlobalAlloc => "global-alloc"

def disp_fwd_kind : BtfFwdKind → String
  | BtfFwdKind.Struct => "struct"
  | BtfFwdKind.Union => "union"

def disp_btf_type : BtfType → String
  | BtfType.Void => "<VOID>"
  | BtfType.Int t =>
    "<INT> " ++ sq ++ disp_name t.name ++ sq ++ " bits:" ++ toString t.bits ++
      " off:" ++ toString t.offset ++
      (match t.encoding with
       | BtfIntEncoding.None => ""
       | e => " enc:" ++ disp_int_encoding e)
  | BtfType.Ptr t => "<PTR> --> [" ++ toString t.type_id ++ "]"
  | BtfType.Array t =>
    "<ARRAY> n:" ++ toString t.nelems ++ " idx-->[" ++ toString t.idx_type_id ++
      "] val-->[" ++ toString t.val_type_id ++ "]"
  | BtfType.Struct t =>
    "<STRUCT> " ++ sq ++ disp_name t.name ++ sq ++ " sz:" ++ toString t.sz ++
      " n:" ++ toString t.members.length ++ disp_list disp_member t.members
  | BtfType.Union t =>
    "<UNION> " ++ sq ++ disp_name t.name ++ sq ++ " sz:" ++ toString t.sz ++
      " n:" ++ toString t.members.length ++ disp_list disp_member t.members
  | BtfType.Enum t =>
    "<ENUM> " ++ sq ++ disp_name t.name ++ sq ++ " sz:" ++ toString t.sz_bits ++
      " n:" ++ toString t.values.length ++ disp_list disp_enum_value t.values
  | BtfType.Fwd t =>
    "<FWD> " ++ sq ++ disp_name t.name ++ sq ++ " kind:" ++ disp_fwd_kind t.kind
  | BtfType.Typedef t =>
    "<TYPEDEF> " ++ sq ++ disp_name t.name ++ sq ++ " --> [" ++
      toString t.type_id ++ "]"
  | BtfType.Volatile t => "<VOLATILE> --> [" ++ toString t.type_id ++ "]"
  | BtfType.Const t => "<CONST> --> [" ++ toString t.type_id ++ "]"
  | BtfType.Restrict t => "<RESTRICT> --> [" ++ toString t.type_id ++ "]"
  | BtfType.Func t =>
    "<FUNC> " ++ sq ++ disp_name t.name ++ sq ++ " --> [" ++
      toString t.proto_type_id ++ "]"
  | BtfType.FuncProto t =>
    "<FUNC_PROTO> r-->[" ++ toString t.res_type_id ++ "] n:" ++
      toString t.params.length ++ disp_list disp_func_param t.params
  | BtfType.Var t =>
    "<VAR> " ++ sq ++ disp_name t.name ++ sq ++ " kind:" ++
      disp_var_kind t.kind ++ " --> [" ++ toString t.type_id ++ "]"
  | BtfType.Datasec t =>
    "<DATASEC> " ++ sq ++ disp_name t.name ++ sq ++ " sz:" ++ toString t.sz ++
      " n:" ++ toString t.vars.length ++ disp_list disp_datasec_var t.vars

/- Ordering pass state, from c_dumper.rs: OrderState plus the order vector.
   The per-type state vector is modelled as a function from id. -/

inductive OrderState where
  | NotOrdered
  | Ordering
  | Ordered
deriving DecidableEq

structure OrdSt where
  order_states : Nat → OrderState
  order : List Nat

def init_ord_st : OrdSt := ⟨fun _ => OrderState.NotOrdered, []⟩

def get_order_state (st : OrdSt) (id : Nat) : OrderState := st.order_states id

def set_order_state (st : OrdSt) (id : Nat) (s : OrderState) : OrdSt :=
  ⟨fun j => if j = id then s else st.order_states j, st.order⟩

def push_order (st : OrdSt) (id : Nat) : OrdSt :=
  ⟨st.order_states, st.order ++ [id]⟩

def fuel_msg : String := "embedding fuel exhausted"

def cycle_msg (btf : Btf) (id : Nat) : String :=
  "Unsatisfiable type cycle, id: " ++ toString id ++ ", type: " ++
    disp_btf_type (btf.type_by_id id)

/- order_type from c_dumper.rs lines 106-211, with order_type_list standing
   for the member and parameter for-loops. The boolean result is the strong
   link flag; the error string matches the source btf_error call. -/

mutual

def order_type (btf : Btf) : Nat → Nat → Bool → OrdSt → Except String (Bool × OrdSt)
  | 0, _, _, _ => Except.error fuel_msg
  | fuel+1, id, has_ptr, st =>
    match get_order_state st id with
    | OrderState.Ordering =>
      match btf.type_by_id id with
      | BtfType.Struct t =>
        if has_ptr && !(t.name == "") then Except.ok (false, st)
        else Except.error (cycle_msg btf id)
      | BtfType.Union t =>
        if has_ptr && !(t.name == "") then Except.ok (false, st)
        else Except.error (cycle_msg btf id)
      | _ => Except.error (cycle_msg btf id)
    | OrderState.Ordered => Except.ok (true, st)
    | OrderState.NotOrdered =>
      match btf.type_by_id id with
      | BtfType.Func _ => Except.ok (false, st)
      | BtfType.Var _ => Except.ok (false, st)
      | BtfType.Datasec _ => Except.ok (false, st)
      | BtfType.Void => Except.ok (false, st)
      | BtfType.Int _ => Except.ok (false, st)
      | BtfType.Volatile t => order_type btf fuel t.type_id has_ptr st
      | BtfType.Const t => order_type btf fuel t.type_id has_ptr st
      | BtfType.Restrict t => order_type btf fuel t.type_id has_ptr st
      | BtfType.Ptr t => order_type btf fuel t.type_id true st
      | BtfType.Array t => order_type btf fuel t.val_type_id has_ptr st
      | BtfType.FuncProto t => do
        let r ← order_type btf fuel t.res_type_id has_ptr st
        order_type_list btf fuel (t.params.map (fun p => p.type_id)) has_ptr r.1 r.2
      | BtfType.Struct t =>
        if !has_ptr || t.name == "" then do
          let st1 := set_order_state st id OrderState.Ordering
          let r ← order_type_list btf fuel (t.members.map (fun m => m.type_id)) false false st1
          let st2 := if t.name == "" then r.2 else push_order r.2 id
          Except.ok (true, set_order_state st2 id OrderState.Ordered)
        else Except.ok (false, st)
      | BtfType.Union t =>
        if !has_ptr || t.name == "" then do
          let st1 := set_order_state st id OrderState.Ordering
          let r ← order_type_list btf fuel (t.members.map (fun m => m.type_id)) false false st1
          let st2 := if t.name == "" then r.2 else push_order r.2 id
          Except.ok (true, set_order_state st2 id OrderState.Ordered)
        else Except.ok (false, st)
      | BtfType.Enum _ =>
        Except.ok (true, set_order_state (push_order st id) id OrderState.Ordered)
      | BtfType.Fwd _ =>
        Except.ok (true, set_order_state (push_order st id) id OrderState.Ordered)
      | BtfType.Typedef t => do
        let r ← order_type btf fuel t.type_id has_ptr st
        if !has_ptr || r.1 then
          Except.ok (true, set_order_state (push_order r.2 id) id OrderState.Ordered)
        else Except.ok (false, r.2)

def order_type_list (btf : Btf) : Nat → List Nat → Bool → Bool → OrdSt → Except String (Bool × OrdSt)
  | 0, _, _, _, _ => Except.error fuel_msg
  | _+1, [], _, acc, st => Except.ok (acc, st)
  | fuel+1, tid :: rest, has_ptr, acc, st => do
    let r ← order_type btf fuel tid has_ptr st
    order_type_list btf fuel rest has_ptr (acc || r.1) r.2

end

/- is_named_def from c_dumper.rs lines 451-460. -/
def is_named_def (btf : Btf) (id : Nat) : Bool :=
  match btf.type_by_id id with
  | BtfType.Struct t => !(t.name == "")
  | BtfType.Union t => !(t.name == "")
  | BtfType.Enum t => !(t.name == "")
  | BtfType.Fwd t => !(t.name == "")
  | BtfType.Typedef t => !(t.name == "")
  | _ => false

/- The ordering loop of dump_types, c_dumper.rs lines 72-81. -/
def order_pass_aux (btf : Btf) (fuel : Nat) (filter : Nat → BtfType → Bool) :
    List Nat → OrdSt → Except String OrdSt
  | [], st => Except.ok st
  | id :: rest, st =>
    if is_named_def btf id && filter id (btf.type_by_id id) then do
      let r ← order_type btf fuel id false st
      order_pass_aux btf fuel filter rest r.2
    else order_pass_aux btf fuel filter rest st

def order_pass (btf : Btf) (fuel : Nat) (filter : Nat → BtfType → Bool) :
    Except String OrdSt :=
  order_pass_aux btf fuel filter (List.range btf.type_cnt) init_ord_st

def order_pass_order (btf : Btf) (fuel : Nat) (filter : Nat → BtfType → Bool) :
    Option (List Nat) :=
  match order_pass btf fuel filter with
  | Except.ok st => some st.order
  | Except.error _ => none

def order_type_result_bool (btf : Btf) (fuel : Nat) (id : Nat) (has_ptr : Bool) :
    Option Bool :=
  match order_type btf fuel id has_ptr init_ord_st with
  | Except.ok r => some r.1
  | Except.error _ => none

/- Output model: printing accumulates a list of events. A fwdStruct or
   fwdUnion event marks the two print sites of emit_struct_fwd and
   emit_union_fwd and carries the original (pre-resolution) name of the
   composite together with the printed text; everything else is plain text. -/

inductive OutEvt where
  | txt (s : String)
  | fwdStruct (orig_name : String) (s : String)
  | fwdUnion (orig_name : String) (s : String)
deriving DecidableEq

abbrev Out := List OutEvt

def render_evt : OutEvt → String
  | OutEvt.txt s => s
  | OutEvt.fwdStruct _ s => s
  | OutEvt.fwdUnion _ s => s

def render (o : Out) : String := String.join (o.map render_evt)

/- Emission state: EmitState, fwd_emitted and resolved_name per type id,
   plus the namespace counter map of CDumper.names. -/

inductive EmitState where
  | NotEmitted
  | Emitting
  | Emitted
deriving DecidableEq

inductive NamedKind where
  | Composite
  | Typedef
  | Func
deriving DecidableEq

structure EmitSt where
  emit_states : Nat → EmitState
  fwd_emitted : Nat → Bool
  resolved_name : Nat → String
  names : NamedKind × String → Nat

def init_emit_st : EmitSt :=
  ⟨fun _ => EmitState.NotEmitted, fun _ => false, fun _ => "", fun _ => 0⟩

def get_emit_state (st : EmitSt) (id : Nat) : EmitState := st.emit_states id

def set_emit_state (st : EmitSt) (id : Nat) (s : EmitState) : EmitSt :=
  { st with emit_states := fun j => if j = id then s else st.emit_states j }

def get_fwd_emitted (st : EmitSt) (id : Nat) : Bool := st.fwd_emitted id

def set_fwd_emitted (st : EmitSt) (id : Nat) (b : Bool) : EmitSt :=
  { st with fwd_emitted := fun j => if j = id then b else st.fwd_emitted j }

/- The NAMES_BLACKLIST regex set contains the single literal pattern
   __builtin_va_list with no metacharacters, so is_match is substring
   containment. -/

def chars_isPrefixOf : List Char → List Char → Bool
  | [], _ => true
  | _ :: _, [] => false
  | p :: ps, h :: hs => p == h && chars_isPrefixOf ps hs

def chars_contains (pat : List Char) : List Char → Bool
  | [] => chars_isPrefixOf pat []
  | h :: t => chars_isPrefixOf pat (h :: t) || chars_contains pat t

def names_blacklist_match (name : String) : Bool :=
  chars_contains ("__builtin_va_list".data) name.data

/- sep and pfx helpers from the bottom of c_dumper.rs; the PREFIXES table
   caps indentation at 12 tabs. -/

def sep (name : String) : String := if name == "" then "" else " "

def pfx (lvl : Nat) : String := String.mk (List.replicate (min lvl 12) '\t')

/- Name resolution, c_dumper.rs lines 850-891. -/

def resolve_kind_name (kind : NamedKind) (id : Nat) (name : String) (st : EmitSt) :
    String × EmitSt :=
  if name == "" then ("", st)
  else if !(st.resolved_name id == "") then (st.resolved_name id, st)
  else
    let version := st.names (kind, name) + 1
    let nm := if version == 1 then name else name ++ "__" ++ toString version
    (nm, { st with
           names := fun k => if k = (kind, name) then version else st.names k,
           resolved_name := fun j => if j = id then nm else st.resolved_name j })

def resolve_name (btf : Btf) (st : EmitSt) (id : Nat) : String × EmitSt :=
  match btf.type_by_id id with
  | BtfType.Struct t => resolve_kind_name NamedKind.Composite id t.name st
  | BtfType.Union t => resolve_kind_name NamedKind.Composite id t.name st
  | BtfType.Enum t => resolve_kind_name NamedKind.Composite id t.name st
  | BtfType.Fwd t => resolve_kind_name NamedKind.Composite id t.name st
  | BtfType.Typedef t => resolve_kind_name NamedKind.Typedef id t.name st
  | BtfType.Func t => resolve_kind_name NamedKind.Func id t.name st
  | _ => ("", st)

def resolve_enum_val_name (btf : Btf) (st : EmitSt) (id : Nat) (t : BtfEnum)
    (name : String) : String × EmitSt :=
  let version := st.names (NamedKind.Typedef, name) + 1
  let st1 := { st with
    names := fun k => if k = (NamedKind.Typedef, name) then version else st.names k }
  if version == 1 then (name, st1)
  else if !(t.name == "") then
    let n := resolve_name btf st1 id
    (name ++ "__" ++ n.1, n.2)
  else (name ++ "__" ++ toString version, st1)

/- Simple emitters without graph recursion. -/

def emit_struct_fwd (btf : Btf) (st : EmitSt) (id : Nat) (t : BtfStruct) :
    Bool × Out × EmitSt :=
  if names_blacklist_match t.name then (false, [], st)
  else
    let n := resolve_name btf st id
    (true, [OutEvt.fwdStruct t.name ("struct " ++ n.1)], n.2)

def emit_union_fwd (btf : Btf) (st : EmitSt) (id : Nat) (t : BtfUnion) :
    Bool × Out × EmitSt :=
  if names_blacklist_match t.name then (false, [], st)
  else
    let n := resolve_name btf st id
    (true, [OutEvt.fwdUnion t.name ("union " ++ n.1)], n.2)

def enum_values_fold (btf : Btf) (id : Nat) (t : BtfEnum) (lvl : Nat) :
    List BtfEnumValue → EmitSt → Out × EmitSt
  | [], st => ([], st)
  | v :: vs, st =>
    let r := resolve_enum_val_name btf st id t v.name
    let rest := enum_values_fold btf id t lvl vs r.2
    ([OutEvt.txt ("\n" ++ pfx (lvl+1) ++ r.1 ++ " = " ++ toString v.value ++ ",")] ++
       rest.1, rest.2)

def emit_enum_def (btf : Btf) (st : EmitSt) (id : Nat) (t : BtfEnum) (lvl : Nat) :
    Out × EmitSt :=
  if names_blacklist_match t.name then ([], st)
  else
    let n := resolve_name btf st id
    if t.values.isEmpty then ([OutEvt.txt ("enum" ++ sep n.1 ++ n.1)], n.2)
    else
      let body := enum_values_fold btf id t lvl t.values n.2
      ([OutEvt.txt ("enum" ++ sep n.1 ++ n.1 ++ " \x7b")] ++ body.1 ++
         [OutEvt.txt ("\n" ++ pfx lvl ++ "\x7d")], body.2)

def emit_fwd_def (btf : Btf) (st : EmitSt) (id : Nat) (t : BtfFwd) : Out × EmitSt :=
  if names_blacklist_match t.name then ([], st)
  else
    let n := resolve_name btf st id
    match t.kind with
    | BtfFwdKind.Struct => ([OutEvt.txt ("struct " ++ n.1)], n.2)
    | BtfFwdKind.Union => ([OutEvt.txt ("union " ++ n.1)], n.2)

def emit_name (fname : String) (last_was_ptr : Bool) : Out :=
  if last_was_ptr then [OutEvt.txt fname]
  else [OutEvt.txt (sep fname ++ fname)]

def emit_mods (btf : Btf) : List Nat → Out × List Nat
  | [] => ([], [])
  | id :: rest =>
    match btf.type_by_id id with
    | BtfType.Volatile _ =>
      let r := emit_mods btf rest
      ([OutEvt.txt ("volatile ")] ++ r.1, r.2)
    | BtfType.Const _ =>
      let r := emit_mods btf rest
      ([OutEvt.txt ("const ")] ++ r.1, r.2)
    | BtfType.Restrict _ =>
      let r := emit_mods btf rest
      ([OutEvt.txt ("restrict ")] ++ r.1, r.2)
    | _ => ([], id :: rest)

def drop_quals (btf : Btf) : List Nat → List Nat
  | [] => []
  | id :: rest =>
    match btf.type_by_id id with
    | BtfType.Volatile _ => drop_quals btf rest
    | BtfType.Const _ => drop_quals btf rest
    | BtfType.Restrict _ => drop_quals btf rest
    | _ => id :: rest

/- Declaration chain construction, the loop of emit_type_decl. -/

inductive ChainRes where
  | ok (chain : List Nat)
  | bad (parents : List Nat) (last : Nat)
  | fuel
deriving DecidableEq

def build_chain (btf : Btf) : Nat → Nat → List Nat → ChainRes
  | 0, _, _ => ChainRes.fuel
  | f+1, id, acc =>
    match btf.type_by_id id with
    | BtfType.Ptr t => build_chain btf f t.type_id (acc ++ [id])
    | BtfType.Const t => build_chain btf f t.type_id (acc ++ [id])
    | BtfType.Volatile t => build_chain btf f t.type_id (acc ++ [id])
    | BtfType.Restrict t => build_chain btf f t.type_id (acc ++ [id])
    | BtfType.Array t => build_chain btf f t.val_type_id (acc ++ [id])
    | BtfType.FuncProto t => build_chain btf f t.res_type_id (acc ++ [id])
    | BtfType.Var _ => ChainRes.bad acc id
    | BtfType.Datasec _ => ChainRes.bad acc id
    | BtfType.Func _ => ChainRes.bad acc id
    | _ => ChainRes.ok (acc ++ [id])

def chain_parents_str (parents : List Nat) : String :=
  String.join ((parents.reverse).map (fun pid => "[" ++ toString pid ++ "] --> "))

/- Bit padding, c_dumper.rs lines 525-561. chip_away_bits is verbatim; the
   while loop of emit_bit_padding becomes pad_steps, recursing on the
   remaining gap, which strictly decreases because every chip is positive. -/

def chip_away_bits (total at_most : Nat) : Nat :=
  if total % at_most == 0 then at_most else total % at_most

def pad_step (ptr_sz_bits bit_diff : Nat) : String × Nat :=
  if ptr_sz_bits > 32 && bit_diff > 32 then
    ("long", chip_away_bits bit_diff ptr_sz_bits)
  else if bit_diff > 16 then ("int", chip_away_bits bit_diff 32)
  else if bit_diff > 8 then ("short", chip_away_bits bit_diff 16)
  else ("char", chip_away_bits bit_diff 8)

def pad_steps (pb : Nat) (bd : Nat) : List (String × Nat) :=
  if h : bd = 0 then []
  else pad_step pb bd :: pad_steps pb (bd - (pad_step pb bd).2)
termination_by bd
decreasing_by
  have hbd : 0 < bd := Nat.pos_of_ne_zero h
  have key : ∀ k, 0 < chip_away_bits bd k := by
    intro k
    unfold chip_away_bits
    split
    · rename_i heq
      rcases Nat.eq_zero_or_pos k with hk | hk
      · subst hk
        simp [Nat.mod_zero] at heq
        omega
      · exact hk
    · rename_i heq
      simp only [beq_iff_eq] at heq
      omega
  have hpos : 0 < (pad_step pb bd).2 := by
    unfold pad_step
    split
    · exact key _
    · split
      · exact key _
      · split
        · exact key _
        · exact key _
  omega

def emit_bit_padding (btf : Btf) (fuel : Nat) (offset : Nat) (m : BtfMember)
    (packed : Bool) (lvl : Nat) : Out :=
  if m.bit_offset ≤ offset then []
  else
    let bit_diff := m.bit_offset - offset
    let align := if packed then 1 else btf.get_align_of fuel m.type_id
    if m.bit_size == 0 && bit_diff < align * 8 then []
    else
      (pad_steps (btf.ptr_sz * 8) bit_diff).map
        (fun s => OutEvt.txt ("\n" ++ pfx lvl ++ s.1 ++ ": " ++ toString s.2 ++ ";"))

/- is_struct_packed, c_dumper.rs lines 563-577. The member loop with early
   return becomes List.any. Where Rust would panic on a modulus by zero
   (a member whose alignment is zero) this model takes n mod 0 = n. -/

def is_struct_packed (btf : Btf) (fuel : Nat) (id : Nat) (t : BtfStruct) : Bool :=
  if !(t.sz % btf.get_align_of fuel id == 0) then true
  else
    t.members.any
      (fun m => m.bit_size == 0 &&
        !(m.bit_offset % (btf.get_align_of fuel m.type_id * 8) == 0))

def anon_struct_loop_msg (btf : Btf) (id : Nat) : String :=
  "anonymous struct loop, id: " ++ toString id ++ ", type: " ++
    disp_btf_type (btf.type_by_id id)

def anon_union_loop_msg (btf : Btf) (id : Nat) : String :=
  "anonymous union loop, id: " ++ toString id ++ ", type: " ++
    disp_btf_type (btf.type_by_id id)

def unexpected_def_loop_msg (btf : Btf) (id : Nat) : String :=
  "unexpected emit_type_def loop at id:" ++ toString id ++ ", type:" ++
    disp_btf_type (btf.type_by_id id)

def unexpected_def_msg (btf : Btf) (id : Nat) : String :=
  "unexpected definition at id:" ++ toString id ++ ", type:" ++
    disp_btf_type (btf.type_by_id id)

def unexpected_decl_msg (btf : Btf) (id : Nat) : String :=
  "!@#! UNEXPECT TYPE DECL id: " ++ toString id ++ ", type: " ++
    disp_btf_type (btf.type_by_id id)

/- The recursive emitters: emit_type_decl and emit_type_chain (c_dumper.rs
   lines 645-820), the composite definition emitters (lines 494-643), and
   the forward pass emit_type_fwds (lines 213-374). The while-let loop of
   emit_type_chain over the popped chain becomes emit_type_chain_go, taking
   the remaining chain with its head as the top of the stack, together with
   the last_was_ptr flag. All take the shared fuel, decremented on every
   nested call. -/

mutual

def emit_type_decl (btf : Btf) : (fuel : Nat) → EmitSt → Nat → String → Nat →
    Except String (Out × EmitSt)
  | 0, _, _, _, _ => Except.error fuel_msg
  | fuel+1, st, id, fname, lvl =>
    match build_chain btf (fuel+1) id [] with
    | ChainRes.fuel => Except.error fuel_msg
    | ChainRes.bad parents last =>
      Except.ok
        ([OutEvt.txt ("!@#! UNEXPECT TYPE DECL CHAIN " ++ chain_parents_str parents ++
            "[" ++ toString last ++ "] " ++ disp_btf_type (btf.type_by_id last))], st)
    | ChainRes.ok chain => emit_type_chain_go btf fuel st chain.reverse true fname lvl

def emit_type_chain_go (btf : Btf) : (fuel : Nat) → EmitSt → List Nat → Bool →
    String → Nat → Except String (Out × EmitSt)
  | 0, _, _, _, _, _ => Except.error fuel_msg
  | _+1, st, [], last_ptr, fname, _ => Except.ok (emit_name fname last_ptr, st)
  | fuel+1, st, id :: rest, last_ptr, fname, lvl =>
    match btf.type_by_id id with
    | BtfType.Void =>
      let mo := emit_mods btf rest
      do
        let r ← emit_type_chain_go btf fuel st mo.2 false fname lvl
        Except.ok (mo.1 ++ [OutEvt.txt ("void")] ++ r.1, r.2)
    | BtfType.Int t =>
      let mo := emit_mods btf rest
      do
        let r ← emit_type_chain_go btf fuel st mo.2 false fname lvl
        Except.ok (mo.1 ++ [OutEvt.txt t.name] ++ r.1, r.2)
    | BtfType.Struct t =>
      let mo := emit_mods btf rest
      if t.name == "" then do
        let d ← emit_struct_def btf fuel st id t lvl
        let r ← emit_type_chain_go btf fuel d.2 mo.2 false fname lvl
        Except.ok (mo.1 ++ d.1 ++ r.1, r.2)
      else
        let f := emit_struct_fwd btf st id t
        do
          let r ← emit_type_chain_go btf fuel f.2.2 mo.2 false fname lvl
          Except.ok (mo.1 ++ f.2.1 ++ r.1, r.2)
    | BtfType.Union t =>
      let mo := emit_mods btf rest
      if t.name == "" then do
        let d ← emit_union_def btf fuel st id t lvl
        let r ← emit_type_chain_go btf fuel d.2 mo.2 false fname lvl
        Except.ok (mo.1 ++ d.1 ++ r.1, r.2)
      else
        let f := emit_union_fwd btf st id t
        do
          let r ← emit_type_chain_go btf fuel f.2.2 mo.2 false fname lvl
          Except.ok (mo.1 ++ f.2.1 ++ r.1, r.2)
    | BtfType.Enum t =>
      let mo := emit_mods btf rest
      if t.name == "" then
        let d := emit_enum_def btf st id t lvl
        do
          let r ← emit_type_chain_go btf fuel d.2 mo.2 false fname lvl
          Except.ok (mo.1 ++ d.1 ++ r.1, r.2)
      else
        let n := resolve_name btf st id
        do
          let r ← emit_type_chain_go btf fuel n.2 mo.2 false fname lvl
          Except.ok (mo.1 ++ [OutEvt.txt ("enum " ++ n.1)] ++ r.1, r.2)
    | BtfType.Fwd t =>
      let mo := emit_mods btf rest
      let d := emit_fwd_def btf st id t
      do
        let r ← emit_type_chain_go btf fuel d.2 mo.2 false fname lvl
        Except.ok (mo.1 ++ d.1 ++ r.1, r.2)
    | BtfType.Typedef _ =>
      let mo := emit_mods btf rest
      let n := resolve_name btf st id
      do
        let r ← emit_type_chain_go btf fuel n.2 mo.2 false fname lvl
        Except.ok (mo.1 ++ [OutEvt.txt n.1] ++ r.1, r.2)
    | BtfType.Ptr _ => do
      let r ← emit_type_chain_go btf fuel st rest true fname lvl
      Except.ok ([OutEvt.txt (if last_ptr then "*" else " *")] ++ r.1, r.2)
    | BtfType.Volatile _ => do
      let r ← emit_type_chain_go btf fuel st rest false fname lvl
      Except.ok ([OutEvt.txt (" volatile")] ++ r.1, r.2)
    | BtfType.Const _ => do
      let r ← emit_type_chain_go btf fuel st rest false fname lvl
      Except.ok ([OutEvt.txt (" const")] ++ r.1, r.2)
    | BtfType.Restrict _ => do
      let r ← emit_type_chain_go btf fuel st rest false fname lvl
      Except.ok ([OutEvt.txt (" restrict")] ++ r.1, r.2)
    | BtfType.Array t =>
      let rest2 := drop_quals btf rest
      if rest2.isEmpty then
        Except.ok (emit_name fname last_ptr ++
          [OutEvt.txt ("[" ++ toString t.nelems ++ "]")], st)
      else do
        let r ← emit_type_chain_go btf fuel st rest2 true fname lvl
        Except.ok ([OutEvt.txt (" (")] ++ r.1 ++ [OutEvt.txt (")")] ++
          [OutEvt.txt ("[" ++ toString t.nelems ++ "]")], r.2)
    | BtfType.FuncProto t =>
      let mo := emit_mods btf rest
      let arg_cnt := t.params.length
      let last_void := match t.params.getLast? with
        | some p => p.type_id == 0
        | none => false
      do
        let hd ←
          if mo.2.isEmpty then pure (emit_name fname last_ptr, st)
          else do
            let r ← emit_type_chain_go btf fuel st mo.2 true fname lvl
            pure (([OutEvt.txt (" (")] ++ r.1 ++ [OutEvt.txt (")")] : Out), r.2)
        let ps ←
          if arg_cnt != 1 || !((t.params.headD ⟨"", 0⟩).type_id == 0) then
            emit_params btf fuel hd.2 t.params 0 arg_cnt last_void lvl
          else pure (([] : Out), hd.2)
        Except.ok (mo.1 ++ hd.1 ++ [OutEvt.txt ("(")] ++ ps.1 ++ [OutEvt.txt (")")], ps.2)
    | BtfType.Func _ => do
      let r ← emit_type_chain_go btf fuel st rest false fname lvl
      Except.ok ([OutEvt.txt (unexpected_decl_msg btf id)] ++ r.1, r.2)
    | BtfType.Var _ => do
      let r ← emit_type_chain_go btf fuel st rest false fname lvl
      Except.ok ([OutEvt.txt (unexpected_decl_msg btf id)] ++ r.1, r.2)
    | BtfType.Datasec _ => do
      let r ← emit_type_chain_go btf fuel st rest false fname lvl
      Except.ok ([OutEvt.txt (unexpected_decl_msg btf id)] ++ r.1, r.2)

def emit_params (btf : Btf) : (fuel : Nat) → EmitSt → List BtfFuncParam → Nat →
    Nat → Bool → Nat → Except String (Out × EmitSt)
  | 0, _, _, _, _, _, _ => Except.error fuel_msg
  | _+1, st, [], _, _, _, _ => Except.ok ([], st)
  | fuel+1, st, p :: ps, idx, arg_cnt, last_void, lvl =>
    let pre : Out := if idx > 0 then [OutEvt.txt (", ")] else []
    if idx == arg_cnt - 1 && last_void then do
      let r ← emit_params btf fuel st ps (idx+1) arg_cnt last_void lvl
      Except.ok (pre ++ [OutEvt.txt ("...")] ++ r.1, r.2)
    else do
      let d ← emit_type_decl btf fuel st p.type_id p.name lvl
      let r ← emit_params btf fuel d.2 ps (idx+1) arg_cnt last_void lvl
      Except.ok (pre ++ d.1 ++ r.1, r.2)

def emit_struct_def (btf : Btf) : (fuel : Nat) → EmitSt → Nat → BtfStruct → Nat →
    Except String (Out × EmitSt)
  | 0, _, _, _, _ => Except.error fuel_msg
  | fuel+1, st, id, t, lvl =>
    if names_blacklist_match t.name then Except.ok ([], st)
    else
      let packed := is_struct_packed btf fuel id t
      let n := resolve_name btf st id
      do
        let m ← emit_struct_members btf fuel n.2 t.members 0 packed lvl
        Except.ok
          (([OutEvt.txt ("struct" ++ sep n.1 ++ n.1 ++ " \x7b")] ++ m.1 ++
            (if t.members.isEmpty then [] else [OutEvt.txt ("\n")]) ++
            [OutEvt.txt (pfx lvl ++ "\x7d")]) ++
            (if packed then [OutEvt.txt (" __attribute__((packed))")] else []), m.2)

def emit_struct_members (btf : Btf) : (fuel : Nat) → EmitSt → List BtfMember →
    Nat → Bool → Nat → Except String (Out × EmitSt)
  | 0, _, _, _, _, _ => Except.error fuel_msg
  | _+1, st, [], _, _, _ => Except.ok ([], st)
  | fuel+1, st, m :: rest, offset, packed, lvl =>
    let pad := emit_bit_padding btf fuel offset m packed (lvl+1)
    do
      let d ← emit_type_decl btf fuel st m.type_id m.name (lvl+1)
      let bits_out : Out :=
        if m.bit_size == 0 then [] else [OutEvt.txt (": " ++ toString m.bit_size)]
      let offset2 :=
        if m.bit_size == 0 then m.bit_offset + btf.get_size_of fuel m.type_id * 8
        else m.bit_offset + m.bit_size
      let r ← emit_struct_members btf fuel d.2 rest offset2 packed lvl
      Except.ok (pad ++ [OutEvt.txt ("\n" ++ pfx (lvl+1))] ++ d.1 ++ bits_out ++
        [OutEvt.txt (";")] ++ r.1, r.2)

def emit_union_def (btf : Btf) : (fuel : Nat) → EmitSt → Nat → BtfUnion → Nat →
    Except String (Out × EmitSt)
  | 0, _, _, _, _ => Except.error fuel_msg
  | fuel+1, st, id, t, lvl =>
    if names_blacklist_match t.name then Except.ok ([], st)
    else
      let n := resolve_name btf st id
      do
        let m ← emit_union_members btf fuel n.2 t.members lvl
        Except.ok
          ([OutEvt.txt ("union" ++ sep n.1 ++ n.1 ++ " \x7b")] ++ m.1 ++
            (if t.members.isEmpty then [] else [OutEvt.txt ("\n")]) ++
            [OutEvt.txt (pfx lvl ++ "\x7d")], m.2)

def emit_union_members (btf : Btf) : (fuel : Nat) → EmitSt → List BtfMember →
    Nat → Except String (Out × EmitSt)
  | 0, _, _, _ => Except.error fuel_msg
  | _+1, st, [], _ => Except.ok ([], st)
  | fuel+1, st, m :: rest, lvl => do
    let d ← emit_type_decl btf fuel st m.type_id m.name (lvl+1)
    let bits_out : Out :=
      if m.bit_size > 0 then [OutEvt.txt (": " ++ toString m.bit_size)] else []
    let r ← emit_union_members btf fuel d.2 rest lvl
    Except.ok ([OutEvt.txt ("\n" ++ pfx (lvl+1))] ++ d.1 ++ bits_out ++
      [OutEvt.txt (";")] ++ r.1, r.2)

def emit_typedef_def (btf : Btf) : (fuel : Nat) → EmitSt → Nat → BtfTypedef →
    Nat → Except String (Out × EmitSt)
  | 0, _, _, _, _ => Except.error fuel_msg
  | fuel+1, st, id, t, lvl =>
    if names_blacklist_match t.name then Except.ok ([], st)
    else
      let n := resolve_name btf st id
      do
        let d ← emit_type_decl btf fuel n.2 t.type_id n.1 lvl
        Except.ok ([OutEvt.txt ("typedef ")] ++ d.1, d.2)

def emit_type_fwds (btf : Btf) : (fuel : Nat) → EmitSt → Nat → Nat → Bool →
    Except String (Out × EmitSt)
  | 0, _, _, _, _ => Except.error fuel_msg
  | fuel+1, st, id, cont_id, is_def =>
    match get_emit_state st id with
    | EmitState.Emitted => Except.ok ([], st)
    | EmitState.Emitting =>
      match btf.type_by_id id with
      | BtfType.Struct t =>
        if get_fwd_emitted st id || id == cont_id then Except.ok ([], st)
        else if !(t.name == "") then
          let f := emit_struct_fwd btf st id t
          Except.ok ((if f.1 then f.2.1 ++ [OutEvt.txt (";\n\n")] else f.2.1),
            set_fwd_emitted f.2.2 id true)
        else Except.error (anon_struct_loop_msg btf id)
      | BtfType.Union t =>
        if get_fwd_emitted st id || id == cont_id then Except.ok ([], st)
        else if !(t.name == "") then
          let f := emit_union_fwd btf st id t
          Except.ok ((if f.1 then f.2.1 ++ [OutEvt.txt (";\n\n")] else f.2.1),
            set_fwd_emitted f.2.2 id true)
        else Except.error (anon_union_loop_msg btf id)
      | BtfType.Typedef t =>
        if get_fwd_emitted st id then Except.ok ([], st)
        else do
          let d ← emit_typedef_def btf fuel st id t 0
          Except.ok (d.1 ++ [OutEvt.txt ("\n\n")], set_fwd_emitted d.2 id true)
      | _ => Except.ok ([], st)
    | EmitState.NotEmitted =>
      match btf.type_by_id id with
      | BtfType.Func _ => Except.ok ([], st)
      | BtfType.Var _ => Except.ok ([], st)
      | BtfType.Datasec _ => Except.ok ([], st)
      | BtfType.Void => Except.ok ([], st)
      | BtfType.Int _ => Except.ok ([], st)
      | BtfType.Volatile t => emit_type_fwds btf fuel st t.type_id cont_id false
      | BtfType.Const t => emit_type_fwds btf fuel st t.type_id cont_id false
      | BtfType.Restrict t => emit_type_fwds btf fuel st t.type_id cont_id false
      | BtfType.Ptr t => emit_type_fwds btf fuel st t.type_id cont_id false
      | BtfType.Array t => emit_type_fwds btf fuel st t.val_type_id cont_id false
      | BtfType.FuncProto t => do
        let r1 ← emit_type_fwds btf fuel st t.res_type_id cont_id false
        let r2 ← emit_type_fwds_list btf fuel r1.2 (t.params.map (fun p => p.type_id)) cont_id
        Except.ok (r1.1 ++ r2.1, r2.2)
      | BtfType.Struct t =>
        let st1 := set_emit_state st id EmitState.Emitting
        if is_def || t.name == "" then do
          let r ← emit_type_fwds_list btf fuel st1 (t.members.map (fun m => m.type_id))
            (if t.name == "" then cont_id else id)
          Except.ok (r.1, set_emit_state r.2 id EmitState.NotEmitted)
        else
          if !(get_fwd_emitted st1 id) && !(id == cont_id) then
            let f := emit_struct_fwd btf st1 id t
            Except.ok ((if f.1 then f.2.1 ++ [OutEvt.txt (";\n\n")] else f.2.1),
              set_emit_state (set_fwd_emitted f.2.2 id true) id EmitState.NotEmitted)
          else Except.ok ([], set_emit_state st1 id EmitState.NotEmitted)
      | BtfType.Union t =>
        let st1 := set_emit_state st id EmitState.Emitting
        if is_def || t.name == "" then do
          let r ← emit_type_fwds_list btf fuel st1 (t.members.map (fun m => m.type_id))
            (if t.name == "" then cont_id else id)
          Except.ok (r.1, set_emit_state r.2 id EmitState.NotEmitted)
        else
          if !(get_fwd_emitted st1 id) && !(id == cont_id) then
            let f := emit_union_fwd btf st1 id t
            Except.ok ((if f.1 then f.2.1 ++ [OutEvt.txt (";\n\n")] else f.2.1),
              set_emit_state (set_fwd_emitted f.2.2 id true) id EmitState.NotEmitted)
          else Except.ok ([], set_emit_state st1 id EmitState.NotEmitted)
      | BtfType.Enum t =>
        let st1 := set_emit_state st id EmitState.Emitting
        if !(t.name == "") then
          let d := emit_enum_def btf st1 id t 0
          Except.ok (d.1 ++ [OutEvt.txt (";\n\n")], set_emit_state d.2 id EmitState.Emitted)
        else Except.ok ([], set_emit_state st1 id EmitState.Emitted)
      | BtfType.Fwd _ =>
        let st1 := set_emit_state st id EmitState.Emitting
        do
          let d ← emit_type_decl btf fuel st1 id ("") 0
          Except.ok (d.1 ++ [OutEvt.txt (";\n\n")], set_emit_state d.2 id EmitState.Emitted)
      | BtfType.Typedef t =>
        let st1 := set_emit_state st id EmitState.Emitting
        do
          let r1 ← emit_type_fwds btf fuel st1 t.type_id id false
          if !(get_fwd_emitted r1.2 id) then do
            let d ← emit_typedef_def btf fuel r1.2 id t 0
            Except.ok (r1.1 ++ d.1 ++ [OutEvt.txt (";\n\n")],
              set_emit_state (set_fwd_emitted d.2 id true) id EmitState.Emitted)
          else Except.ok (r1.1, set_emit_state r1.2 id EmitState.Emitted)

def emit_type_fwds_list (btf : Btf) : (fuel : Nat) → EmitSt → List Nat → Nat →
    Except String (Out × EmitSt)
  | 0, _, _, _ => Except.error fuel_msg
  | _+1, st, [], _ => Except.ok ([], st)
  | fuel+1, st, id :: rest, cont_id => do
    let r1 ← emit_type_fwds btf fuel st id cont_id false
    let r2 ← emit_type_fwds_list btf fuel r1.2 rest cont_id
    Except.ok (r1.1 ++ r2.1, r2.2)

end

/- emit_type_def, c_dumper.rs lines 376-438. -/
def emit_type_def (btf : Btf) (fuel : Nat) (st : EmitSt) (id : Nat) :
    Except String (Out × EmitSt) :=
  match get_emit_state st id with
  | EmitState.Emitting => Except.error (unexpected_def_loop_msg btf id)
  | EmitState.Emitted => Except.ok ([], st)
  | EmitState.NotEmitted =>
    match btf.type_by_id id with
    | BtfType.Struct t =>
      if !(t.name == "") then do
        let d ← emit_struct_def btf fuel st id t 0
        Except.ok (d.1 ++ [OutEvt.txt (";\n\n")], set_emit_state d.2 id EmitState.Emitted)
      else Except.error (unexpected_def_msg btf id)
    | BtfType.Union t =>
      if !(t.name == "") then do
        let d ← emit_union_def btf fuel st id t 0
        Except.ok (d.1 ++ [OutEvt.txt (";\n\n")], set_emit_state d.2 id EmitState.Emitted)
      else Except.error (unexpected_def_msg btf id)
    | BtfType.Enum t =>
      if !(t.name == "") then
        let d := emit_enum_def btf st id t 0
        Except.ok (d.1 ++ [OutEvt.txt (";\n\n")], set_emit_state d.2 id EmitState.Emitted)
      else Except.error (unexpected_def_msg btf id)
    | BtfType.Fwd t =>
      if !(t.name == "") then
        let d := emit_fwd_def btf st id t
        Except.ok (d.1 ++ [OutEvt.txt (";\n\n")], set_emit_state d.2 id EmitState.Emitted)
      else Except.error (unexpected_def_msg btf id)
    | BtfType.Typedef t =>
      if !(t.name == "") then
        if !(get_fwd_emitted st id) then do
          let d ← emit_typedef_def btf fuel st id t 0
          Except.ok (d.1 ++ [OutEvt.txt (";\n\n")], set_emit_state d.2 id EmitState.Emitted)
        else Except.ok ([], set_emit_state st id EmitState.Emitted)
      else Except.error (unexpected_def_msg btf id)
    | _ => Except.error (unexpected_def_msg btf id)

/- The emission loop of dump_types, c_dumper.rs lines 88-102, and the whole
   dump_types driver. -/

def emit_pass (btf : Btf) (fuel : Nat) : List Nat → EmitSt →
    Except String (Out × EmitSt)
  | [], st => Except.ok ([], st)
  | id :: rest, st =>
    if is_named_def btf id then do
      let r1 ← emit_type_fwds btf fuel st id id true
      let r2 ← emit_type_def btf fuel r1.2 id
      let r3 ← emit_pass btf fuel rest r2.2
      Except.ok (r1.1 ++ r2.1 ++ r3.1, r3.2)
    else emit_pass btf fuel rest st

def dump_types (btf : Btf) (fuel : Nat) (filter : Nat → BtfType → Bool) :
    Except String Out := do
  let st ← order_pass btf fuel filter
  let r ← emit_pass btf fuel st.order init_emit_st
  Except.ok r.1

def emit_fwds_render (btf : Btf) (fuel : Nat) (id cont_id : Nat) (is_def : Bool) :
    String :=
  match emit_type_fwds btf fuel init_emit_st id cont_id is_def with
  | Except.ok r => render r.1
  | Except.error e => "ERROR: " ++ e

def emit_def_render (btf : Btf) (fuel : Nat) (st : EmitSt) (id : Nat) : String :=
  match emit_type_def btf fuel st id with
  | Except.ok r => render r.1
  | Except.error e => "ERROR: " ++ e

/- Comparator for the bit padding claim, written from the claim wording
   rather than from the source: at each step pick long when the pointer
   width exceeds 32 bits and the gap exceeds 32, else int when the gap
   exceeds 16, else short when it exceeds 8, else char; the emitted width
   is gap mod chunk width when that is nonzero, else the chunk width. -/

def pad_spec_step (ptr_bits gap : Nat) : String × Nat :=
  let tycw : String × Nat :=
    if ptr_bits > 32 ∧ gap > 32 then ("long", ptr_bits)
    else if gap > 16 then ("int", 32)
    else if gap > 8 then ("short", 16)
    else ("char", 8)
  (tycw.1, if gap % tycw.2 ≠ 0 then gap % tycw.2 else tycw.2)

def pad_spec_list (ptr_bits : Nat) (gap : Nat) : List (String × Nat) :=
  if h : gap = 0 then []
  else pad_spec_step ptr_bits gap :: pad_spec_list ptr_bits (gap - (pad_spec_step ptr_bits gap).2)
termination_by gap
decreasing_by
  have hg : 0 < gap := Nat.pos_of_ne_zero h
  have hpos : 0 < (pad_spec_step ptr_bits gap).2 := by
    unfold pad_spec_step
    have keyw : ∀ k, 0 < k → 0 < (if gap % k ≠ 0 then gap % k else k) := by
      intro k hk
      split
      · omega
      · exact hk
    split
    · rename_i hc
      simp only
      exact keyw _ (by omega)
    · split
      · simp only
        exact keyw _ (by omega)
      · split
        · simp only
          exact keyw _ (by omega)
        · simp only
          exact keyw _ (by omega)
  omega

def bit_padding_spec (btf : Btf) (fuel : Nat) (offset : Nat) (m : BtfMember)
    (packed : Bool) : List (String × Nat) :=
  if m.bit_offset ≤ offset then []
  else
    let gap := m.bit_offset - offset
    let align := if packed then 1 else btf.get_align_of fuel m.type_id
    if m.bit_size = 0 ∧ gap < align * 8 then []
    else pad_spec_list (btf.ptr_sz * 8) gap

/- Helpers naming the entity kinds that resolve_name dispatches on. -/

def entity_name (btf : Btf) (id : Nat) : String :=
  match btf.type_by_id id with
  | BtfType.Struct t => t.name
  | BtfType.Union t => t.name
  | BtfType.Enum t => t.name
  | BtfType.Fwd t => t.name
  | BtfType.Typedef t => t.name
  | BtfType.Func t => t.name
  | _ => ""

def entity_kind (btf : Btf) (id : Nat) : NamedKind :=
  match btf.type_by_id id with
  | BtfType.Typedef _ => NamedKind.Typedef
  | BtfType.Func _ => NamedKind.Func
  | _ => NamedKind.Composite

def is_named_struct_or_union (btf : Btf) (id : Nat) : Bool :=
  match btf.type_by_id id with
  | BtfType.Struct t => !(t.name == "")
  | BtfType.Union t => !(t.name == "")
  | _ => false

def is_struct_or_union_node (btf : Btf) (id : Nat) : Bool :=
  match btf.type_by_id id with
  | BtfType.Struct _ => true
  | BtfType.Union _ => true
  | _ => false

def is_typedef_node (btf : Btf) (id : Nat) : Bool :=
  match btf.type_by_id id with
  | BtfType.Typedef _ => true
  | _ => false

/- Strong (pointer-free) dependency edges of the graph: the successor ids a
   node embeds without going through a pointer, as traversed by order_type
   with has_ptr unchanged (Ptr contributes nothing). -/

def strong_succs (btf : Btf) (id : Nat) : List Nat :=
  match btf.type_by_id id with
  | BtfType.Volatile t => [t.type_id]
  | BtfType.Const t => [t.type_id]
  | BtfType.Restrict t => [t.type_id]
  | BtfType.Array t => [t.val_type_id]
  | BtfType.FuncProto t => t.res_type_id :: t.params.map (fun p => p.type_id)
  | BtfType.Struct t => t.members.map (fun m => m.type_id)
  | BtfType.Union t => t.members.map (fun m => m.type_id)
  | BtfType.Typedef t => [t.type_id]
  | _ => []

/- Pointer-free reachability of a named definition B, with every strictly
   intermediate node unnamed. This is the claim level notion of a strong
   (embedding) dependency. -/

inductive SReachClaim (btf : Btf) : Nat → Nat → Prop where
  | refl (id : Nat) (h : is_named_def btf id = true) : SReachClaim btf id id
  | step (x y B : Nat) (hx : is_named_def btf x = false)
      (hy : y ∈ strong_succs btf x) (hr : SReachClaim btf y B) : SReachClaim btf x B

def strong_dep_claim (btf : Btf) (A B : Nat) : Prop :=
  is_named_def btf A = true ∧ ∃ y ∈ strong_succs btf A, SReachClaim btf y B

/- The same reachability further restricted to paths whose intermediate
   nodes are not typedefs: an unnamed typedef can be marked Ordered by a
   weak visit without its pointer-free closure being ordered, so it does
   not transport the ordering guarantee. -/

inductive SReachND (btf : Btf) : Nat → Nat → Prop where
  | refl (id : Nat) (h : is_named_def btf id = true) : SReachND btf id id
  | step (x y B : Nat) (hx : is_named_def btf x = false)
      (ht : is_typedef_node btf x = false) (hy : y ∈ strong_succs btf x)
      (hr : SReachND btf y B) : SReachND btf x B

def strong_dep_nd (btf : Btf) (A B : Nat) : Prop :=
  is_named_def btf A = true ∧ ∃ y ∈ strong_succs btf A, SReachND btf y B

/- Invariants of the ordering pass. -/

def ordered_closed (btf : Btf) (st : OrdSt) : Prop :=
  ∀ x B, get_order_state st x = OrderState.Ordered → SReachND btf x B → B ∈ st.order

def good_order (btf : Btf) (l : List Nat) : Prop :=
  ∀ A B j, is_struct_or_union_node btf A = true → strong_dep_nd btf A B →
    l.get? j = some A → ∃ i, i < j ∧ l.get? i = some B

def ord_inv (btf : Btf) (st : OrdSt) : Prop :=
  ordered_closed btf st ∧ good_order btf st.order

/- Goodness of an output: every composite forward declaration event carries
   a nonempty original name. -/

def out_good (o : Out) : Prop :=
  ∀ e ∈ o, match e with
  | OutEvt.fwdStruct nm _ => nm ≠ ""
  | OutEvt.fwdUnion nm _ => nm ≠ ""
  | OutEvt.txt _ => True

def emit_out (r : Except String (Out × EmitSt)) : Out :=
  match r with
  | Except.ok p => p.1
  | Except.error _ => []

def dump_out (r : Except String Out) : Out :=
  match r with
  | Except.ok o => o
  | Except.error _ => []

/- Concrete graphs used by counterexamples and witnesses. GC0 contains a
   typedef reached again through a pointer-broken cycle: id 1 is a typedef
   of a function prototype whose parameters are struct S (id 3, which holds
   a pointer back to the typedef) and enum E (id 5). -/

def GC0 : Btf :=
  ⟨[BtfType.Void,
    BtfType.Typedef ⟨"T", 2⟩,
    BtfType.FuncProto ⟨0, [⟨"a", 3⟩, ⟨"b", 5⟩]⟩,
    BtfType.Struct ⟨"S", 8, [⟨"p", 4, 0, 0⟩]⟩,
    BtfType.Ptr ⟨1⟩,
    BtfType.Enum ⟨"E", 32, []⟩], 8⟩

def GC2 : Btf :=
  ⟨[BtfType.Void,
    BtfType.Int ⟨"int", 32, 0, BtfIntEncoding.Signed⟩,
    BtfType.Typedef ⟨"__builtin_va_list", 1⟩], 8⟩

def GC3 : Btf :=
  ⟨[BtfType.Void, BtfType.Enum ⟨"e", 32, []⟩, BtfType.Ptr ⟨1⟩], 8⟩

def GC4 : Btf :=
  ⟨[BtfType.Void,
    BtfType.Struct ⟨"Inner", 4, []⟩,
    BtfType.Struct ⟨"Outer", 4, [⟨"x", 1, 0, 0⟩]⟩], 8⟩

def GC5 : Btf :=
  ⟨[BtfType.Void, BtfType.Struct ⟨"s", 4, []⟩, BtfType.Ptr ⟨1⟩], 8⟩

def accept_all : Nat → BtfType → Bool := fun _ _ => true



/- Basic facts about the ordering state operations. -/

theorem get_set_order_state_self (st : OrdSt) (id : Nat) (s : OrderState) :
    get_order_state (set_order_state st id s) id = s := by
  simp [get_order_state, set_order_state]

theorem get_set_order_state_other (st : OrdSt) (id j : Nat) (s : OrderState)
    (h : j ≠ id) :
    get_order_state (set_order_state st id s) j = get_order_state st j := by
  simp [get_order_state, set_order_state, h]

theorem set_order_state_order (st : OrdSt) (id : Nat) (s : OrderState) :
    (set_order_state st id s).order = st.order := rfl

theorem push_order_order (st : OrdSt) (id : Nat) :
    (push_order st id).order = st.order ++ [id] := rfl

theorem get_push_order (st : OrdSt) (id j : Nat) :
    get_order_state (push_order st id) j = get_order_state st j := rfl

/- Bounds for chip_away_bits and the padding loop. -/

theorem chip_away_bits_pos (total k : Nat) (h : 0 < total) :
    0 < chip_away_bits total k := by
  unfold chip_away_bits
  split
  · rename_i heq
    rcases Nat.eq_zero_or_pos k with hk | hk
    · subst hk
      simp [Nat.mod_zero] at heq
      omega
    · exact hk
  · rename_i heq
    simp only [beq_iff_eq] at heq
    omega

theorem chip_away_bits_le_total (total k : Nat) (h : 0 < total) :
    chip_away_bits total k ≤ total := by
  unfold chip_away_bits
  split
  · rename_i heq
    rcases Nat.eq_zero_or_pos k with hk | hk
    · subst hk
      simp [Nat.mod_zero] at heq
      omega
    · exact Nat.le_of_dvd h (Nat.dvd_of_mod_eq_zero (by simpa using heq))
  · exact Nat.mod_le total k

theorem chip_away_bits_le_at_most (total k : Nat) (hk : 0 < k) :
    chip_away_bits total k ≤ k := by
  unfold chip_away_bits
  split
  · exact Nat.le_refl k
  · exact Nat.le_of_lt (Nat.mod_lt _ hk)

theorem pad_step_pos (pb bd : Nat) (h : 0 < bd) : 0 < (pad_step pb bd).2 := by
  unfold pad_step
  split
  · exact chip_away_bits_pos _ _ h
  · split
    · exact chip_away_bits_pos _ _ h
    · split
      · exact chip_away_bits_pos _ _ h
      · exact chip_away_bits_pos _ _ h

theorem pad_step_le (pb bd : Nat) (h : 0 < bd) : (pad_step pb bd).2 ≤ bd := by
  unfold pad_step
  split
  · exact chip_away_bits_le_total _ _ h
  · split
    · exact chip_away_bits_le_total _ _ h
    · split
      · exact chip_away_bits_le_total _ _ h
      · exact chip_away_bits_le_total _ _ h

theorem pad_steps_mem_bounds (pb : Nat) :
    ∀ bd s, s ∈ pad_steps pb bd → 1 ≤ s.2 ∧ s.2 ≤ bd := by
  intro bd
  induction bd using Nat.strong_induction_on with
  | _ bd ih =>
    intro s hs
    rw [pad_steps] at hs
    by_cases h : bd = 0
    · simp [h] at hs
    · simp only [h, dite_false] at hs
      have hpos := pad_step_pos pb bd (Nat.pos_of_ne_zero h)
      have hle := pad_step_le pb bd (Nat.pos_of_ne_zero h)
      rcases List.mem_cons.mp hs with hs | hs
      · subst hs
        exact ⟨hpos, hle⟩
      · have := ih (bd - (pad_step pb bd).2) (by omega) s hs
        omega

theorem pad_steps_sum (pb : Nat) :
    ∀ bd, ((pad_steps pb bd).map (fun s => s.2)).sum = bd := by
  intro bd
  induction bd using Nat.strong_induction_on with
  | _ bd ih =>
    rw [pad_steps]
    by_cases h : bd = 0
    · simp [h]
    · simp only [h, dite_false, List.map_cons, List.sum_cons]
      have hpos := pad_step_pos pb bd (Nat.pos_of_ne_zero h)
      have hle := pad_step_le pb bd (Nat.pos_of_ne_zero h)
      rw [ih (bd - (pad_step pb bd).2) (by omega)]
      omega

/-- Claim C10 (confirmed): for positive total and positive divisor,
chip_away_bits returns a value r with 1 <= r <= total and r <= at_most; in
the padding loop of emit_bit_padding every emitted width lies between 1 and
the remaining gap, so the unsigned subtraction never underflows, the gap
strictly decreases, and the loop terminates, consuming the gap exactly: the
emitted widths sum to the initial gap. -/
theorem chip_away_bits_bounds_and_padding_terminates :
    (∀ total at_most : Nat, 0 < total → 0 < at_most →
      1 ≤ chip_away_bits total at_most ∧ chip_away_bits total at_most ≤ total ∧
        chip_away_bits total at_most ≤ at_most) ∧
    (∀ pb bd s, s ∈ pad_steps pb bd → 1 ≤ s.2 ∧ s.2 ≤ bd) ∧
    (∀ pb bd, ((pad_steps pb bd).map (fun s => s.2)).sum = bd) := by
  refine ⟨fun total k ht hk => ⟨chip_away_bits_pos total k ht,
    chip_away_bits_le_total total k ht, chip_away_bits_le_at_most total k hk⟩,
    pad_steps_mem_bounds, pad_steps_sum⟩

theorem chip_away_bits_bounds_witness :
    (0 < 13 ∧ 0 < 8) ∧
    (1 ≤ chip_away_bits 13 8 ∧ chip_away_bits 13 8 ≤ 13 ∧ chip_away_bits 13 8 ≤ 8) ∧
    ((pad_steps 64 45).map (fun s => s.2)).sum = 45 :=
  ⟨by decide,
   chip_away_bits_bounds_and_padding_terminates.1 13 8 (by decide) (by decide),
   chip_away_bits_bounds_and_padding_terminates.2.2 64 45⟩

/- The padding comparator agrees with the source loop step by step. -/

theorem pad_spec_step_eq (pb g : Nat) : pad_spec_step pb g = pad_step pb g := by
  unfold pad_spec_step pad_step
  have key : ∀ k, (if g % k ≠ 0 then g % k else k) = chip_away_bits g k := by
    intro k
    unfold chip_away_bits
    by_cases h : g % k = 0
    · simp [h]
    · simp [h]
  by_cases h1 : pb > 32 ∧ g > 32
  · simp [h1, key]
  · by_cases h2 : g > 16
    · simp [h1, h2, key]
    · by_cases h3 : g > 8
      · simp [h1, h2, h3, key]
      · simp [h1, h2, h3, key]

theorem pad_spec_list_eq (pb : Nat) : ∀ g, pad_spec_list pb g = pad_steps pb g := by
  intro g
  induction g using Nat.strong_induction_on with
  | _ g ih =>
    rw [pad_spec_list, pad_steps]
    by_cases h : g = 0
    · simp [h]
    · simp only [h, dite_false]
      rw [pad_spec_step_eq]
      have hpos := pad_step_pos pb g (Nat.pos_of_ne_zero h)
      rw [ih (g - (pad_step pb g).2) (by omega)]

/-- Claim C6 (confirmed): emit_bit_padding emits nothing when the member is
not a bitfield and the gap is below its alignment in bits (alignment forced
to 1 when packed), and otherwise emits exactly the greedy sequence of
anonymous bitfields described by the claim: long when the pointer width
exceeds 32 bits and the gap exceeds 32, else int above 16, else short above
8, else char, each of width gap mod chunk when nonzero and chunk otherwise. -/
theorem emit_bit_padding_matches_spec (btf : Btf) (fuel offset : Nat)
    (m : BtfMember) (packed : Bool) (lvl : Nat) :
    emit_bit_padding btf fuel offset m packed lvl =
      (bit_padding_spec btf fuel offset m packed).map
        (fun s => OutEvt.txt ("\n" ++ pfx lvl ++ s.1 ++ ": " ++ toString s.2 ++ ";")) := by
  unfold emit_bit_padding bit_padding_spec
  by_cases h1 : m.bit_offset ≤ offset
  · simp [h1]
  · simp only [h1, if_false]
    rw [pad_spec_list_eq]
    by_cases hc : m.bit_size = 0 ∧ m.bit_offset - offset <
        (if packed then 1 else btf.get_align_of fuel m.type_id) * 8
    · have hb : (m.bit_size == 0 &&
          decide (m.bit_offset - offset <
            (if packed then 1 else btf.get_align_of fuel m.type_id) * 8)) = true := by
        simp only [Bool.and_eq_true, beq_iff_eq, decide_eq_true_eq]
        exact hc
      simp only [hb, if_true, if_pos hc, List.map_nil]
    · have hb : ¬ ((m.bit_size == 0 &&
          decide (m.bit_offset - offset <
            (if packed then 1 else btf.get_align_of fuel m.type_id) * 8)) = true) := by
        simp only [Bool.and_eq_true, beq_iff_eq, decide_eq_true_eq]
        exact hc
      simp only [if_neg hb, if_neg hc]




/- Reduction helpers for Except binds. -/

theorem except_bind_ok {α β : Type} (a : α) (f : α → Except String β) :
    (Except.ok a >>= f) = f a := rfl

theorem except_bind_error {α β : Type} (e : String) (f : α → Except String β) :
    ((Except.error e : Except String α) >>= f) = Except.error e := rfl

/-- Claim C5 (confirmed): is_struct_packed holds exactly when the struct
size is not a multiple of its computed alignment or some non-bitfield
member sits at a bit offset not divisible by eight times the alignment of
its type; and the emitted struct definition of a non-blacklisted struct is
the body ending in the closing brace followed by the packed attribute
exactly when is_struct_packed holds. -/
theorem is_struct_packed_iff_and_attr (btf : Btf) (fuel : Nat) (id : Nat)
    (t : BtfStruct) (st : EmitSt) (lvl : Nat)
    (hnode : btf.type_by_id id = BtfType.Struct t)
    (hbl : names_blacklist_match t.name = false) :
    (is_struct_packed btf fuel id t = true ↔
      (¬ t.sz % btf.get_align_of fuel id = 0 ∨
        ∃ m ∈ t.members, m.bit_size = 0 ∧
          ¬ m.bit_offset % (btf.get_align_of fuel m.type_id * 8) = 0)) ∧
    (∀ o st', emit_struct_def btf (fuel+1) st id t lvl = Except.ok (o, st') →
      ∃ pre, o = pre ++
          (if is_struct_packed btf fuel id t then
            [OutEvt.txt (" __attribute__((packed))")] else []) ∧
        ∃ pre2, pre = pre2 ++ [OutEvt.txt (pfx lvl ++ "\x7d")]) := by
  constructor
  · unfold is_struct_packed
    by_cases hsz : t.sz % btf.get_align_of fuel id = 0
    · simp [hsz, List.any_eq_true]
    · simp [hsz]
  · intro o st' h
    rw [emit_struct_def] at h
    simp only [hbl, Bool.false_eq_true, if_false] at h
    rcases hm : emit_struct_members btf fuel (resolve_name btf st id).2 t.members 0
        (is_struct_packed btf fuel id t) lvl with e | p
    · rw [hm, except_bind_error] at h
      cases h
    · rw [hm, except_bind_ok] at h
      rw [Except.ok.injEq, Prod.mk.injEq] at h
      obtain ⟨h1, h2⟩ := h
      refine ⟨_, h1.symm, ?_⟩
      refine ⟨[OutEvt.txt ("struct" ++ sep (resolve_name btf st id).1 ++
          (resolve_name btf st id).1 ++ " \x7b")] ++ p.1 ++
          (if t.members.isEmpty then [] else [OutEvt.txt ("\n")]), ?_⟩
      simp [List.append_assoc]

theorem is_struct_packed_iff_witness :
    (GC4.type_by_id 1 = BtfType.Struct ⟨"Inner", 4, []⟩ ∧
      names_blacklist_match ("Inner") = false) ∧
    (is_struct_packed GC4 5 1 ⟨"Inner", 4, []⟩ = true ↔
      (¬ (4 : Nat) % GC4.get_align_of 5 1 = 0 ∨
        ∃ m ∈ ([] : List BtfMember), m.bit_size = 0 ∧
          ¬ m.bit_offset % (GC4.get_align_of 5 m.type_id * 8) = 0)) :=
  ⟨⟨rfl, by decide⟩,
    (is_struct_packed_iff_and_attr GC4 5 1 ⟨"Inner", 4, []⟩ init_emit_st 0 rfl
      (by decide)).1⟩

/- String appending facts used for name resolution. -/

theorem str_append_ne_empty (a b : String) (h : ¬ a = "") : ¬ (a ++ b) = "" := by
  intro hc
  apply h
  apply String.ext
  have hd : (a ++ b).data = a.data ++ b.data := String.data_append a b
  rw [hc] at hd
  have : a.data ++ b.data = [] := hd.symm
  have := List.append_eq_nil.mp this
  simp [this.1]

theorem resolve_kind_name_empty (kind : NamedKind) (id : Nat) (st : EmitSt) :
    resolve_kind_name kind id ("") st = ("", st) := by
  unfold resolve_kind_name
  simp

theorem resolve_kind_name_memoized (kind : NamedKind) (id : Nat) (name : String)
    (st : EmitSt) (hname : ¬ name = "") (hmemo : ¬ st.resolved_name id = "") :
    resolve_kind_name kind id name st = (st.resolved_name id, st) := by
  unfold resolve_kind_name
  simp [hname, hmemo]

theorem resolve_kind_name_fresh (kind : NamedKind) (id : Nat) (name : String)
    (st : EmitSt) (hname : ¬ name = "") (hfresh : st.resolved_name id = "") :
    resolve_kind_name kind id name st =
      ((if st.names (kind, name) + 1 == 1 then name
        else name ++ "__" ++ toString (st.names (kind, name) + 1)),
       { st with
         names := fun k => if k = (kind, name) then st.names (kind, name) + 1
           else st.names k,
         resolved_name := fun j =>
           if j = id then
             (if st.names (kind, name) + 1 == 1 then name
              else name ++ "__" ++ toString (st.names (kind, name) + 1))
           else st.resolved_name j }) := by
  unfold resolve_kind_name
  simp [hname, hfresh]

theorem resolve_kind_name_props (kind : NamedKind) (id : Nat) (name : String)
    (st : EmitSt) :
    (name = "" → resolve_kind_name kind id name st = ("", st)) ∧
    (resolve_kind_name kind id name (resolve_kind_name kind id name st).2 =
      resolve_kind_name kind id name st) ∧
    (¬ name = "" → st.resolved_name id = "" →
      ((resolve_kind_name kind id name st).2.names (kind, name) =
          st.names (kind, name) + 1 ∧
        (resolve_kind_name kind id name st).1 =
          (if st.names (kind, name) + 1 == 1 then name
           else name ++ "__" ++ toString (st.names (kind, name) + 1)))) := by
  refine ⟨?_, ?_, ?_⟩
  · intro h
    subst h
    exact resolve_kind_name_empty kind id st
  · by_cases hname : name = ""
    · subst hname
      rw [resolve_kind_name_empty, resolve_kind_name_empty]
    · by_cases hmemo : st.resolved_name id = ""
      · rw [resolve_kind_name_fresh kind id name st hname hmemo]
        have hne : ¬ (if st.names (kind, name) + 1 == 1 then name
            else name ++ "__" ++ toString (st.names (kind, name) + 1)) = "" := by
          split
          · exact hname
          · exact str_append_ne_empty _ _ (str_append_ne_empty _ _ hname)
        rw [resolve_kind_name_memoized kind id name _ hname (by simpa using hne)]
        simp
      · rw [resolve_kind_name_memoized kind id name st hname hmemo]
        exact resolve_kind_name_memoized kind id name st hname hmemo
  · intro hname hfresh
    rw [resolve_kind_name_fresh kind id name st hname hfresh]
    simp

/-- Claim C8 (confirmed): resolve_name is idempotent and memoized, the
namespace counter for the entity is bumped at most once per id, the first
call on a named entity returns the original name when the incremented
counter equals 1 and the suffixed name otherwise, and an unnamed entity
resolves to the empty string. -/
theorem resolve_name_idempotent_memoized (btf : Btf) (st : EmitSt) (id : Nat) :
    (entity_name btf id = "" → resolve_name btf st id = ("", st)) ∧
    (resolve_name btf (resolve_name btf st id).2 id = resolve_name btf st id) ∧
    (¬ entity_name btf id = "" → st.resolved_name id = "" →
      ((resolve_name btf st id).2.names (entity_kind btf id, entity_name btf id) =
          st.names (entity_kind btf id, entity_name btf id) + 1 ∧
        (resolve_name btf st id).1 =
          (if st.names (entity_kind btf id, entity_name btf id) + 1 == 1
           then entity_name btf id
           else entity_name btf id ++ "__" ++
             toString (st.names (entity_kind btf id, entity_name btf id) + 1)))) := by
  cases hnode : btf.type_by_id id <;>
    simp only [resolve_name, entity_name, entity_kind, hnode] <;>
    first
      | exact resolve_kind_name_props _ id _ st
      | refine ⟨fun _ => ?_, ?_, fun hn => absurd ?_ hn⟩ <;> simp

theorem resolve_name_idempotent_witness :
    (¬ entity_name GC4 1 = "" ∧ init_emit_st.resolved_name 1 = "") ∧
    ((resolve_name GC4 init_emit_st 1).2.names (entity_kind GC4 1, entity_name GC4 1) =
        init_emit_st.names (entity_kind GC4 1, entity_name GC4 1) + 1 ∧
      (resolve_name GC4 init_emit_st 1).1 =
        (if init_emit_st.names (entity_kind GC4 1, entity_name GC4 1) + 1 == 1
         then entity_name GC4 1
         else entity_name GC4 1 ++ "__" ++
           toString (init_emit_st.names (entity_kind GC4 1, entity_name GC4 1) + 1))) :=
  ⟨⟨by decide, rfl⟩,
   (resolve_name_idempotent_memoized GC4 init_emit_st 1).2.2 (by decide) rfl⟩

/-- Claim C3 (confirmed): when order_type re-enters an id in the Ordering
state, it returns false with the state untouched exactly when the node is a
named struct or union reached with has_ptr true, and in every other case it
returns the fatal Unsatisfiable type cycle error. -/
theorem order_type_ordering_case (btf : Btf) (fuel id : Nat) (has_ptr : Bool)
    (st : OrdSt) (hord : get_order_state st id = OrderState.Ordering) :
    (order_type btf (fuel+1) id has_ptr st = Except.ok (false, st) ↔
      (has_ptr = true ∧ is_named_struct_or_union btf id = true)) ∧
    (¬ (has_ptr = true ∧ is_named_struct_or_union btf id = true) →
      order_type btf (fuel+1) id has_ptr st = Except.error (cycle_msg btf id)) := by
  rw [order_type, hord]
  cases hnode : btf.type_by_id id <;>
    simp only [is_named_struct_or_union, hnode] <;>
    first
      | exact ⟨by simp, fun _ => trivial⟩
      | (rename_i t
         cases has_ptr <;> by_cases hn : t.name = "" <;> simp [hn])

theorem order_type_ordering_case_witness :
    get_order_state (set_order_state init_ord_st 1 OrderState.Ordering) 1 =
      OrderState.Ordering ∧
    (order_type GC5 6 1 true (set_order_state init_ord_st 1 OrderState.Ordering) =
        Except.ok (false, set_order_state init_ord_st 1 OrderState.Ordering) ↔
      (true = true ∧ is_named_struct_or_union GC5 1 = true)) :=
  ⟨rfl, (order_type_ordering_case GC5 5 1 true
    (set_order_state init_ord_st 1 OrderState.Ordering) rfl).1⟩

/-- Claim C2 (corrected) counterexample: order_type called on a Ptr node
whose pointee is a named enum returns true to its caller, not false. -/
theorem order_type_ptr_counterexample :
    GC3.type_by_id 2 = BtfType.Ptr ⟨1⟩ ∧
    order_type_result_bool GC3 10 2 false = some true :=
  ⟨rfl, by decide⟩

/-- Claim C2 (corrected, amended): on a Ptr node order_type tail calls into
the pointee with has_ptr set, and the caller receives whatever that call
returns; the result is false when the pointee is a named struct or union
that is not already Ordered (the weakened strong link of the claim), but it
can be true for other pointees. -/
theorem order_type_ptr_tail (btf : Btf) (fuel id tid : Nat) (has_ptr : Bool)
    (st : OrdSt) (hnode : btf.type_by_id id = BtfType.Ptr ⟨tid⟩)
    (hst : get_order_state st id = OrderState.NotOrdered) :
    (order_type btf (fuel+1) id has_ptr st = order_type btf fuel tid true st) ∧
    (is_named_struct_or_union btf tid = true →
      ¬ get_order_state st tid = OrderState.Ordered →
      order_type btf (fuel+2) id has_ptr st = Except.ok (false, st)) := by
  have tail : ∀ f : Nat,
      order_type btf (f+1) id has_ptr st = order_type btf f tid true st := by
    intro f
    simp only [order_type, hst, hnode]
  refine ⟨tail fuel, ?_⟩
  intro hsu hnord
  rw [tail (fuel+1), order_type]
  rcases hso : get_order_state st tid with _ | _ | _
  · unfold is_named_struct_or_union at hsu
    rcases htn : btf.type_by_id tid <;> rw [htn] at hsu <;> simp at hsu <;>
      simp [hso, htn, hsu]
  · unfold is_named_struct_or_union at hsu
    rcases htn : btf.type_by_id tid <;> rw [htn] at hsu <;> simp at hsu <;>
      simp [hso, htn, hsu]
  · exact absurd hso hnord

theorem order_type_ptr_tail_witness :
    (GC5.type_by_id 2 = BtfType.Ptr ⟨1⟩ ∧
      get_order_state init_ord_st 2 = OrderState.NotOrdered ∧
      is_named_struct_or_union GC5 1 = true ∧
      ¬ get_order_state init_ord_st 1 = OrderState.Ordered) ∧
    order_type GC5 7 2 false init_ord_st = Except.ok (false, init_ord_st) :=
  ⟨⟨rfl, rfl, by decide, by decide⟩,
   (order_type_ptr_tail GC5 5 2 1 false init_ord_st rfl rfl).2 (by decide) (by decide)⟩




/- List and reachability helpers for the ordering invariants. -/

theorem mem_get_some {l : List Nat} {a : Nat} (h : a ∈ l) :
    ∃ i, l.get? i = some a := by
  obtain ⟨n, hn⟩ := List.mem_iff_get.mp h
  exact ⟨n, by rw [List.get?_eq_get n.isLt, hn]⟩

theorem sreachnd_cases {btf : Btf} {x B : Nat} (h : SReachND btf x B) :
    (is_named_def btf x = true ∧ B = x) ∨
    (is_named_def btf x = false ∧ is_typedef_node btf x = false ∧
      ∃ y ∈ strong_succs btf x, SReachND btf y B) := by
  cases h with
  | refl id hid => exact Or.inl ⟨hid, rfl⟩
  | step x y B hx ht hy hr => exact Or.inr ⟨hx, ht, y, hy, hr⟩

theorem ordered_closed_set_ordering (btf : Btf) (st : OrdSt) (id : Nat)
    (h : ordered_closed btf st) :
    ordered_closed btf (set_order_state st id OrderState.Ordering) := by
  intro x B hx hr
  by_cases hxi : x = id
  · subst hxi
    rw [get_set_order_state_self] at hx
    cases hx
  · rw [get_set_order_state_other _ _ _ _ hxi] at hx
    rw [set_order_state_order]
    exact h x B hx hr

theorem ordered_closed_push (btf : Btf) (st : OrdSt) (id : Nat)
    (h : ordered_closed btf st) : ordered_closed btf (push_order st id) := by
  intro x B hx hr
  rw [push_order_order]
  exact List.mem_append_left _ (h x B hx hr)

theorem ordered_closed_set_ordered (btf : Btf) (st : OrdSt) (id : Nat)
    (h : ordered_closed btf st)
    (hreach : ∀ B, SReachND btf id B → B ∈ st.order) :
    ordered_closed btf (set_order_state st id OrderState.Ordered) := by
  intro x B hx hr
  rw [set_order_state_order]
  by_cases hxi : x = id
  · subst hxi
    exact hreach B hr
  · rw [get_set_order_state_other _ _ _ _ hxi] at hx
    exact h x B hx hr

theorem good_order_append (btf : Btf) (l : List Nat) (id : Nat)
    (h : good_order btf l)
    (hnew : is_struct_or_union_node btf id = true →
      ∀ B, strong_dep_nd btf id B → B ∈ l) :
    good_order btf (l ++ [id]) := by
  intro A B j hsu hdep hj
  by_cases hjl : j < l.length
  · rw [List.get?_append hjl] at hj
    obtain ⟨i, hi, hgi⟩ := h A B j hsu hdep hj
    exact ⟨i, hi, by rw [List.get?_append (lt_trans hi hjl)]; exact hgi⟩
  · have hlen : j < l.length + 1 := by
      have := (List.get?_eq_some.mp hj).1
      simpa using this
    have hj2 : j = l.length := by omega
    subst hj2
    rw [List.get?_concat_length] at hj
    have hA : A = id := by
      have := (Option.some.injEq _ _).mp hj
      omega
    subst hA
    obtain ⟨i, hgi⟩ := mem_get_some (hnew hsu B hdep)
    have hib : i < l.length := (List.get?_eq_some.mp hgi).1
    exact ⟨i, hib, by rw [List.get?_append hib]; exact hgi⟩

/- The master invariant of the ordering pass: a successful order_type call
   extends the order, preserves the invariants, and, when entered without a
   pointer on the path, guarantees that every named definition reachable
   through pointer-free non-typedef edges is in the resulting order. -/

theorem order_master (btf : Btf) : ∀ fuel : Nat,
    (∀ id has_ptr st b st', order_type btf fuel id has_ptr st = Except.ok (b, st') →
      ord_inv btf st →
      (st.order <+: st'.order) ∧ ord_inv btf st' ∧
      (has_ptr = false → ∀ B, SReachND btf id B → B ∈ st'.order)) ∧
    (∀ ids has_ptr acc st b st',
      order_type_list btf fuel ids has_ptr acc st = Except.ok (b, st') →
      ord_inv btf st →
      (st.order <+: st'.order) ∧ ord_inv btf st' ∧
      (has_ptr = false → ∀ y ∈ ids, ∀ B, SReachND btf y B → B ∈ st'.order)) := by
  intro fuel
  induction fuel with
  | zero =>
    constructor
    · intro id has_ptr st b st' h
      rw [order_type] at h
      cases h
    · intro ids has_ptr acc st b st' h
      rw [order_type_list] at h
      cases h
  | succ fuel ih =>
    obtain ⟨ih1, ih2⟩ := ih
    constructor
    · intro id has_ptr st b st' h hinv
      rw [order_type] at h
      split at h
      -- Ordering state
      · rename_i hso
        split at h
        · rename_i t
          split at h
          · rename_i hcond
            rw [Except.ok.injEq, Prod.mk.injEq] at h
            obtain ⟨hb, hst'⟩ := h
            subst hst'
            refine ⟨List.prefix_rfl, hinv, ?_⟩
            intro hfp
            rw [hfp] at hcond
            simp at hcond
          · cases h
        · rename_i t
          split at h
          · rename_i hcond
            rw [Except.ok.injEq, Prod.mk.injEq] at h
            obtain ⟨hb, hst'⟩ := h
            subst hst'
            refine ⟨List.prefix_rfl, hinv, ?_⟩
            intro hfp
            rw [hfp] at hcond
            simp at hcond
          · cases h
        · cases h
      -- Ordered state
      · rename_i hso
        rw [Except.ok.injEq, Prod.mk.injEq] at h
        obtain ⟨hb, hst'⟩ := h
        subst hst'
        exact ⟨List.prefix_rfl, hinv, fun _ B hr => hinv.1 id B hso hr⟩
      -- NotOrdered state
      · rename_i hso
        split at h
        -- Func
        · rename_i hnode
          rw [Except.ok.injEq, Prod.mk.injEq] at h
          obtain ⟨hb, hst'⟩ := h
          subst hst'
          refine ⟨List.prefix_rfl, hinv, ?_⟩
          intro hfp B hr
          rcases sreachnd_cases hr with ⟨hn, _⟩ | ⟨_, _, y, hy, _⟩
          · simp [is_named_def, hnode] at hn
          · simp [strong_succs, hnode] at hy
        -- Var
        · rename_i hnode
          rw [Except.ok.injEq, Prod.mk.injEq] at h
          obtain ⟨hb, hst'⟩ := h
          subst hst'
          refine ⟨List.prefix_rfl, hinv, ?_⟩
          intro hfp B hr
          rcases sreachnd_cases hr with ⟨hn, _⟩ | ⟨_, _, y, hy, _⟩
          · simp [is_named_def, hnode] at hn
          · simp [strong_succs, hnode] at hy
        -- Datasec
        · rename_i hnode
          rw [Except.ok.injEq, Prod.mk.injEq] at h
          obtain ⟨hb, hst'⟩ := h
          subst hst'
          refine ⟨List.prefix_rfl, hinv, ?_⟩
          intro hfp B hr
          rcases sreachnd_cases hr with ⟨hn, _⟩ | ⟨_, _, y, hy, _⟩
          · simp [is_named_def, hnode] at hn
          · simp [strong_succs, hnode] at hy
        -- Void
        · rename_i hnode
          rw [Except.ok.injEq, Prod.mk.injEq] at h
          obtain ⟨hb, hst'⟩ := h
          subst hst'
          refine ⟨List.prefix_rfl, hinv, ?_⟩
          intro hfp B hr
          rcases sreachnd_cases hr with ⟨hn, _⟩ | ⟨_, _, y, hy, _⟩
          · simp [is_named_def, hnode] at hn
          · simp [strong_succs, hnode] at hy
        -- Int
        · rename_i hnode
          rw [Except.ok.injEq, Prod.mk.injEq] at h
          obtain ⟨hb, hst'⟩ := h
          subst hst'
          refine ⟨List.prefix_rfl, hinv, ?_⟩
          intro hfp B hr
          rcases sreachnd_cases hr with ⟨hn, _⟩ | ⟨_, _, y, hy, _⟩
          · simp [is_named_def, hnode] at hn
          · simp [strong_succs, hnode] at hy
        -- Volatile
        · rename_i t hnode
          obtain ⟨hp, hi, hs⟩ := ih1 _ _ _ _ _ h hinv
          refine ⟨hp, hi, ?_⟩
          intro hfp B hr
          rcases sreachnd_cases hr with ⟨hn, _⟩ | ⟨_, _, y, hy, hrB⟩
          · simp [is_named_def, hnode] at hn
          · simp [strong_succs, hnode] at hy
            subst hy
            exact hs hfp B hrB
        -- Const
        · rename_i t hnode
          obtain ⟨hp, hi, hs⟩ := ih1 _ _ _ _ _ h hinv
          refine ⟨hp, hi, ?_⟩
          intro hfp B hr
          rcases sreachnd_cases hr with ⟨hn, _⟩ | ⟨_, _, y, hy, hrB⟩
          · simp [is_named_def, hnode] at hn
          · simp [strong_succs, hnode] at hy
            subst hy
            exact hs hfp B hrB
        -- Restrict
        · rename_i t hnode
          obtain ⟨hp, hi, hs⟩ := ih1 _ _ _ _ _ h hinv
          refine ⟨hp, hi, ?_⟩
          intro hfp B hr
          rcases sreachnd_cases hr with ⟨hn, _⟩ | ⟨_, _, y, hy, hrB⟩
          · simp [is_named_def, hnode] at hn
          · simp [strong_succs, hnode] at hy
            subst hy
            exact hs hfp B hrB
        -- Ptr
        · rename_i t hnode
          obtain ⟨hp, hi, _⟩ := ih1 _ _ _ _ _ h hinv
          refine ⟨hp, hi, ?_⟩
          intro hfp B hr
          rcases sreachnd_cases hr with ⟨hn, _⟩ | ⟨_, _, y, hy, _⟩
          · simp [is_named_def, hnode] at hn
          · simp [strong_succs, hnode] at hy
        -- Array
        · rename_i t hnode
          obtain ⟨hp, hi, hs⟩ := ih1 _ _ _ _ _ h hinv
          refine ⟨hp, hi, ?_⟩
          intro hfp B hr
          rcases sreachnd_cases hr with ⟨hn, _⟩ | ⟨_, _, y, hy, hrB⟩
          · simp [is_named_def, hnode] at hn
          · simp [strong_succs, hnode] at hy
            subst hy
            exact hs hfp B hrB
        -- FuncProto
        · rename_i t hnode
          rcases hr1 : order_type btf fuel t.res_type_id has_ptr st with e | r1
          · rw [hr1, except_bind_error] at h
            cases h
          · rw [hr1, except_bind_ok] at h
            obtain ⟨hp1, hi1, hs1⟩ := ih1 _ _ _ _ _ hr1 hinv
            obtain ⟨hp2, hi2, hs2⟩ := ih2 _ _ _ _ _ _ h hi1
            refine ⟨hp1.trans hp2, hi2, ?_⟩
            intro hfp B hr
            rcases sreachnd_cases hr with ⟨hn, _⟩ | ⟨_, _, y, hy, hrB⟩
            · simp [is_named_def, hnode] at hn
            · simp only [strong_succs, hnode] at hy
              rcases List.mem_cons.mp hy with hy | hy
              · subst hy
                exact hp2.subset (hs1 hfp B hrB)
              · exact hs2 hfp y hy B hrB
        -- Struct
        · rename_i t hnode
          split at h
          · rename_i hcond
            dsimp only [] at h
            rcases hr : order_type_list btf fuel (t.members.map fun m => m.type_id)
                false false (set_order_state st id OrderState.Ordering) with e | r
            · rw [hr, except_bind_error] at h
              cases h
            · rw [hr, except_bind_ok] at h
              rw [Except.ok.injEq, Prod.mk.injEq] at h
              obtain ⟨hb, hst'⟩ := h
              subst hst'
              have hinv1 : ord_inv btf (set_order_state st id OrderState.Ordering) :=
                ⟨ordered_closed_set_ordering _ _ _ hinv.1, hinv.2⟩
              obtain ⟨hp, hi2, hs⟩ := ih2 _ _ _ _ _ _ hr hinv1
              have hsm : ∀ y ∈ t.members.map (fun m => m.type_id),
                  ∀ B, SReachND btf y B → B ∈ r.2.order := hs rfl
              by_cases hname : t.name = ""
              · have hbeq : (t.name == "") = true := by simp [hname]
                rw [if_pos hbeq]
                have hreach : ∀ B, SReachND btf id B → B ∈ r.2.order := by
                  intro B hrB
                  rcases sreachnd_cases hrB with ⟨hn, _⟩ | ⟨_, _, y, hy, hrB2⟩
                  · simp [is_named_def, hnode, hname] at hn
                  · simp only [strong_succs, hnode] at hy
                    exact hsm y hy B hrB2
                refine ⟨?_, ⟨?_, ?_⟩, ?_⟩
                · rw [set_order_state_order]
                  exact hp
                · exact ordered_closed_set_ordered _ _ _ hi2.1 hreach
                · rw [set_order_state_order]
                  exact hi2.2
                · intro hfp B hrB
                  rw [set_order_state_order]
                  exact hreach B hrB
              · have hbne : ¬ ((t.name == "") = true) := by simp [hname]
                rw [if_neg hbne]
                have hreach : ∀ B, SReachND btf id B → B ∈ (push_order r.2 id).order := by
                  intro B hrB
                  rcases sreachnd_cases hrB with ⟨_, hB⟩ | ⟨hn, _, _, _, _⟩
                  · subst hB
                    rw [push_order_order]
                    exact List.mem_append_right _ (List.mem_singleton_self _)
                  · simp [is_named_def, hnode, hname] at hn
                refine ⟨?_, ⟨?_, ?_⟩, ?_⟩
                · rw [set_order_state_order, push_order_order]
                  exact hp.trans (List.prefix_append _ _)
                · exact ordered_closed_set_ordered _ _ _
                    (ordered_closed_push _ _ _ hi2.1) hreach
                · rw [set_order_state_order, push_order_order]
                  refine good_order_append _ _ _ hi2.2 ?_
                  intro _ B hdep
                  obtain ⟨_, y, hy, hrB⟩ := hdep
                  simp only [strong_succs, hnode] at hy
                  exact hsm y hy B hrB
                · intro hfp B hrB
                  rw [set_order_state_order]
                  exact hreach B hrB
          · rename_i hcond
            rw [Except.ok.injEq, Prod.mk.injEq] at h
            obtain ⟨hb, hst'⟩ := h
            subst hst'
            refine ⟨List.prefix_rfl, hinv, ?_⟩
            intro hfp
            rw [hfp] at hcond
            simp at hcond
        -- Union
        · rename_i t hnode
          split at h
          · rename_i hcond
            dsimp only [] at h
            rcases hr : order_type_list btf fuel (t.members.map fun m => m.type_id)
                false false (set_order_state st id OrderState.Ordering) with e | r
            · rw [hr, except_bind_error] at h
              cases h
            · rw [hr, except_bind_ok] at h
              rw [Except.ok.injEq, Prod.mk.injEq] at h
              obtain ⟨hb, hst'⟩ := h
              subst hst'
              have hinv1 : ord_inv btf (set_order_state st id OrderState.Ordering) :=
                ⟨ordered_closed_set_ordering _ _ _ hinv.1, hinv.2⟩
              obtain ⟨hp, hi2, hs⟩ := ih2 _ _ _ _ _ _ hr hinv1
              have hsm : ∀ y ∈ t.members.map (fun m => m.type_id),
                  ∀ B, SReachND btf y B → B ∈ r.2.order := hs rfl
              by_cases hname : t.name = ""
              · have hbeq : (t.name == "") = true := by simp [hname]
                rw [if_pos hbeq]
                have hreach : ∀ B, SReachND btf id B → B ∈ r.2.order := by
                  intro B hrB
                  rcases sreachnd_cases hrB with ⟨hn, _⟩ | ⟨_, _, y, hy, hrB2⟩
                  · simp [is_named_def, hnode, hname] at hn
                  · simp only [strong_succs, hnode] at hy
                    exact hsm y hy B hrB2
                refine ⟨?_, ⟨?_, ?_⟩, ?_⟩
                · rw [set_order_state_order]
                  exact hp
                · exact ordered_closed_set_ordered _ _ _ hi2.1 hreach
                · rw [set_order_state_order]
                  exact hi2.2
                · intro hfp B hrB
                  rw [set_order_state_order]
                  exact hreach B hrB
              · have hbne : ¬ ((t.name == "") = true) := by simp [hname]
                rw [if_neg hbne]
                have hreach : ∀ B, SReachND btf id B → B ∈ (push_order r.2 id).order := by
                  intro B hrB
                  rcases sreachnd_cases hrB with ⟨_, hB⟩ | ⟨hn, _, _, _, _⟩
                  · subst hB
                    rw [push_order_order]
                    exact List.mem_append_right _ (List.mem_singleton_self _)
                  · simp [is_named_def, hnode, hname] at hn
                refine ⟨?_, ⟨?_, ?_⟩, ?_⟩
                · rw [set_order_state_order, push_order_order]
                  exact hp.trans (List.prefix_append _ _)
                · exact ordered_closed_set_ordered _ _ _
                    (ordered_closed_push _ _ _ hi2.1) hreach
                · rw [set_order_state_order, push_order_order]
                  refine good_order_append _ _ _ hi2.2 ?_
                  intro _ B hdep
                  obtain ⟨_, y, hy, hrB⟩ := hdep
                  simp only [strong_succs, hnode] at hy
                  exact hsm y hy B hrB
                · intro hfp B hrB
                  rw [set_order_state_order]
                  exact hreach B hrB
          · rename_i hcond
            rw [Except.ok.injEq, Prod.mk.injEq] at h
            obtain ⟨hb, hst'⟩ := h
            subst hst'
            refine ⟨List.prefix_rfl, hinv, ?_⟩
            intro hfp
            rw [hfp] at hcond
            simp at hcond
        -- Enum
        · rename_i t hnode
          rw [Except.ok.injEq, Prod.mk.injEq] at h
          obtain ⟨hb, hst'⟩ := h
          subst hst'
          have hreach : ∀ B, SReachND btf id B → B ∈ (push_order st id).order := by
            intro B hrB
            rcases sreachnd_cases hrB with ⟨_, hB⟩ | ⟨_, _, y, hy, _⟩
            · subst hB
              rw [push_order_order]
              exact List.mem_append_right _ (List.mem_singleton_self _)
            · simp [strong_succs, hnode] at hy
          refine ⟨?_, ⟨?_, ?_⟩, ?_⟩
          · rw [set_order_state_order, push_order_order]
            exact List.prefix_append _ _
          · exact ordered_closed_set_ordered _ _ _
              (ordered_closed_push _ _ _ hinv.1) hreach
          · rw [set_order_state_order, push_order_order]
            refine good_order_append _ _ _ hinv.2 ?_
            intro hsu
            simp [is_struct_or_union_node, hnode] at hsu
          · intro hfp B hrB
            rw [set_order_state_order]
            exact hreach B hrB
        -- Fwd
        · rename_i t hnode
          rw [Except.ok.injEq, Prod.mk.injEq] at h
          obtain ⟨hb, hst'⟩ := h
          subst hst'
          have hreach : ∀ B, SReachND btf id B → B ∈ (push_order st id).order := by
            intro B hrB
            rcases sreachnd_cases hrB with ⟨_, hB⟩ | ⟨_, _, y, hy, _⟩
            · subst hB
              rw [push_order_order]
              exact List.mem_append_right _ (List.mem_singleton_self _)
            · simp [strong_succs, hnode] at hy
          refine ⟨?_, ⟨?_, ?_⟩, ?_⟩
          · rw [set_order_state_order, push_order_order]
            exact List.prefix_append _ _
          · exact ordered_closed_set_ordered _ _ _
              (ordered_closed_push _ _ _ hinv.1) hreach
          · rw [set_order_state_order, push_order_order]
            refine good_order_append _ _ _ hinv.2 ?_
            intro hsu
            simp [is_struct_or_union_node, hnode] at hsu
          · intro hfp B hrB
            rw [set_order_state_order]
            exact hreach B hrB
        -- Typedef
        · rename_i t hnode
          rcases hr1 : order_type btf fuel t.type_id has_ptr st with e | r1
          · rw [hr1, except_bind_error] at h
            cases h
          · rw [hr1, except_bind_ok] at h
            obtain ⟨hp1, hi1, hs1⟩ := ih1 _ _ _ _ _ hr1 hinv
            split at h
            · rename_i hcond
              rw [Except.ok.injEq, Prod.mk.injEq] at h
              obtain ⟨hb, hst'⟩ := h
              subst hst'
              have hreach : ∀ B, SReachND btf id B → B ∈ (push_order r1.2 id).order := by
                intro B hrB
                rcases sreachnd_cases hrB with ⟨_, hB⟩ | ⟨_, htd, _, _, _⟩
                · subst hB
                  rw [push_order_order]
                  exact List.mem_append_right _ (List.mem_singleton_self _)
                · simp [is_typedef_node, hnode] at htd
              refine ⟨?_, ⟨?_, ?_⟩, ?_⟩
              · rw [set_order_state_order, push_order_order]
                exact hp1.trans (List.prefix_append _ _)
              · exact ordered_closed_set_ordered _ _ _
                  (ordered_closed_push _ _ _ hi1.1) hreach
              · rw [set_order_state_order, push_order_order]
                refine good_order_append _ _ _ hi1.2 ?_
                intro hsu
                simp [is_struct_or_union_node, hnode] at hsu
              · intro hfp B hrB
                rw [set_order_state_order]
                exact hreach B hrB
            · rename_i hcond
              rw [Except.ok.injEq, Prod.mk.injEq] at h
              obtain ⟨hb, hst'⟩ := h
              subst hst'
              refine ⟨hp1, hi1, ?_⟩
              intro hfp
              rw [hfp] at hcond
              simp at hcond
    · intro ids has_ptr acc st b st' h hinv
      cases ids with
      | nil =>
        rw [order_type_list] at h
        rw [Except.ok.injEq, Prod.mk.injEq] at h
        obtain ⟨hb, hst'⟩ := h
        subst hst'
        exact ⟨List.prefix_rfl, hinv, fun _ y hy => absurd hy (List.not_mem_nil y)⟩
      | cons tid rest =>
        rw [order_type_list] at h
        rcases hr1 : order_type btf fuel tid has_ptr st with e | r1
        · rw [hr1, except_bind_error] at h
          cases h
        · rw [hr1, except_bind_ok] at h
          obtain ⟨hp1, hi1, hs1⟩ := ih1 _ _ _ _ _ hr1 hinv
          obtain ⟨hp2, hi2, hs2⟩ := ih2 _ _ _ _ _ _ h hi1
          refine ⟨hp1.trans hp2, hi2, ?_⟩
          intro hfp y hy B hrB
          rcases List.mem_cons.mp hy with hy | hy
          · subst hy
            exact hp2.subset (hs1 hfp B hrB)
          · exact hs2 hfp y hy B hrB




theorem ord_inv_init (btf : Btf) : ord_inv btf init_ord_st := by
  constructor
  · intro x B hx
    simp [get_order_state, init_ord_st] at hx
  · intro A B j _ _ hj
    simp [init_ord_st] at hj

theorem order_pass_aux_master (btf : Btf) (fuel : Nat)
    (filter : Nat → BtfType → Bool) :
    ∀ ids st st', order_pass_aux btf fuel filter ids st = Except.ok st' →
      ord_inv btf st →
      (st.order <+: st'.order) ∧ ord_inv btf st' ∧
      (∀ id ∈ ids, is_named_def btf id = true →
        filter id (btf.type_by_id id) = true → id ∈ st'.order) := by
  intro ids
  induction ids with
  | nil =>
    intro st st' h hinv
    rw [order_pass_aux] at h
    rw [Except.ok.injEq] at h
    subst h
    exact ⟨List.prefix_rfl, hinv, fun x hx => absurd hx (List.not_mem_nil x)⟩
  | cons id rest ih =>
    intro st st' h hinv
    rw [order_pass_aux] at h
    split at h
    · rename_i hacc
      rcases hr : order_type btf fuel id false st with e | r
      · rw [hr, except_bind_error] at h
        cases h
      · rw [hr, except_bind_ok] at h
        obtain ⟨hp1, hi1, hs1⟩ := (order_master btf fuel).1 _ _ _ _ _ hr hinv
        obtain ⟨hp2, hi2, hmem⟩ := ih r.2 st' h hi1
        refine ⟨hp1.trans hp2, hi2, ?_⟩
        intro x hx hnx hfx
        rcases List.mem_cons.mp hx with hx | hx
        · subst hx
          exact hp2.subset (hs1 rfl x (SReachND.refl x hnx))
        · exact hmem x hx hnx hfx
    · rename_i hacc
      obtain ⟨hp, hi, hmem⟩ := ih st st' h hinv
      refine ⟨hp, hi, ?_⟩
      intro x hx hnx hfx
      rcases List.mem_cons.mp hx with hx | hx
      · subst hx
        rw [hnx, hfx] at hacc
        simp at hacc
      · exact hmem x hx hnx hfx

/-- Claim C4 (corrected, amended): whenever the ordering pass of dump_types
completes without error, every named definition accepted by the filter
occurs at least once in the resulting order vector; the exactly-once part
of the claim fails, because a typedef re-entered through a pointer-broken
cycle can be pushed twice, and on graphs whose cycles avoid struct and
union nodes the pass does not terminate at all. -/
theorem order_pass_accepted_mem (btf : Btf) (fuel : Nat)
    (filter : Nat → BtfType → Bool) (l : List Nat) (id : Nat)
    (hok : order_pass_order btf fuel filter = some l)
    (hid : id < btf.type_cnt)
    (hnamed : is_named_def btf id = true)
    (hfilt : filter id (btf.type_by_id id) = true) : id ∈ l := by
  unfold order_pass_order order_pass at hok
  rcases hp : order_pass_aux btf fuel filter (List.range btf.type_cnt) init_ord_st
      with e | st'
  · rw [hp] at hok
    cases hok
  · rw [hp] at hok
    rw [Option.some.injEq] at hok
    subst hok
    exact (order_pass_aux_master btf fuel filter _ _ _ hp (ord_inv_init btf)).2.2 id
      (List.mem_range.mpr hid) hnamed hfilt

theorem order_pass_accepted_mem_witness :
    (order_pass_order GC0 30 accept_all = some [5, 1, 3, 1] ∧ 3 < GC0.type_cnt ∧
      is_named_def GC0 3 = true ∧ accept_all 3 (GC0.type_by_id 3) = true) ∧
    3 ∈ [5, 1, 3, 1] :=
  ⟨⟨by decide, by decide, by decide, rfl⟩,
   order_pass_accepted_mem GC0 30 accept_all [5, 1, 3, 1] 3 (by decide) (by decide)
     (by decide) rfl⟩

/-- Claim C4 (corrected) counterexample: on the graph GC0 the ordering pass
of dump_types succeeds, and the named typedef id 1, accepted by the filter,
is pushed twice into the order vector: it is ordered once during a weak
revisit through the pointer-broken cycle and once more by its own
traversal. -/
theorem order_pass_duplicate_counterexample :
    order_pass_order GC0 30 accept_all = some [5, 1, 3, 1] ∧
    is_named_def GC0 1 = true ∧ accept_all 1 (GC0.type_by_id 1) = true ∧
    List.count 1 [5, 1, 3, 1] = 2 :=
  ⟨by decide, by decide, rfl, by decide⟩

/-- Claim C1 (corrected, amended): whenever the ordering pass succeeds, and
A is a named struct or union with a strong dependency on a named B along a
pointer-free path whose intermediate nodes are anonymous and not typedefs,
every occurrence of A in the produced order is preceded by an occurrence of
B, so the full definition of B is emitted before that of A. When A is a
typedef, or the path runs through an unnamed typedef already ordered by a
weak visit, the guarantee fails, as the counterexample shows. -/
theorem order_pass_strong_dep_before (btf : Btf) (fuel : Nat)
    (filter : Nat → BtfType → Bool) (l : List Nat) (A B j : Nat)
    (hok : order_pass_order btf fuel filter = some l)
    (hsu : is_struct_or_union_node btf A = true)
    (hdep : strong_dep_nd btf A B)
    (hj : l.get? j = some A) : ∃ i, i < j ∧ l.get? i = some B := by
  unfold order_pass_order order_pass at hok
  rcases hp : order_pass_aux btf fuel filter (List.range btf.type_cnt) init_ord_st
      with e | st'
  · rw [hp] at hok
    cases hok
  · rw [hp] at hok
    rw [Option.some.injEq] at hok
    subst hok
    exact (order_pass_aux_master btf fuel filter _ _ _ hp
      (ord_inv_init btf)).2.1.2 A B j hsu hdep hj

theorem order_pass_strong_dep_before_witness :
    (order_pass_order GC4 20 accept_all = some [1, 2] ∧
      is_struct_or_union_node GC4 2 = true ∧ strong_dep_nd GC4 2 1 ∧
      [1, 2].get? 1 = some 2) ∧
    ∃ i, i < 1 ∧ [1, 2].get? i = some 1 :=
  ⟨⟨by decide, by decide,
      ⟨by decide, 1, by decide, SReachND.refl 1 (by decide)⟩, rfl⟩,
   order_pass_strong_dep_before GC4 20 accept_all [1, 2] 2 1 1 (by decide)
     (by decide) ⟨by decide, 1, by decide, SReachND.refl 1 (by decide)⟩ rfl⟩

/-- Claim C1 (corrected) counterexample: in GC0 the named typedef id 1
strongly depends (with no pointer on the path, through the function
prototype id 2) on the named struct id 3, the ordering pass succeeds, yet
the first occurrence of struct 3 in the produced order comes after the
first occurrence of typedef 1, so the definition of 1 is emitted before
that of 3. -/
theorem order_before_counterexample :
    strong_dep_claim GC0 1 3 ∧ is_named_def GC0 1 = true ∧
    is_named_def GC0 3 = true ∧
    order_pass_order GC0 30 accept_all = some [5, 1, 3, 1] ∧
    ¬ List.indexOf 3 [5, 1, 3, 1] < List.indexOf 1 [5, 1, 3, 1] := by
  refine ⟨⟨by decide, 2, by decide, ?_⟩, by decide, by decide, by decide, by decide⟩
  exact SReachClaim.step 2 3 3 (by decide) (by decide) (SReachClaim.refl 3 (by decide))




/-- Claim C9 (corrected) counterexample: for the blacklisted typedef
__builtin_va_list at id 2 of GC2 the forward pass suppresses the typedef
body but still prints the bare terminator, so the output written for the
entity is (";\n\n") rather than nothing. -/
theorem blacklist_terminator_counterexample :
    names_blacklist_match (entity_name GC2 2) = true ∧
    emit_fwds_render GC2 20 2 2 true = ";\n\n" ∧
    ¬ (";\n\n" : String) = "" :=
  ⟨by decide, by decide, by decide⟩

/-- Claim C9 (corrected, amended): a blacklisted entity has every forward
declaration body and definition body suppressed: emit_struct_fwd and
emit_union_fwd print nothing and return false, so the guarded composite
forward sites write nothing at all, and emit_struct_def, emit_union_def,
emit_enum_def, emit_fwd_def and emit_typedef_def write nothing; the bare
terminator text at the unguarded typedef, enum and definition-pass call
sites is still written, as the counterexample shows. -/
theorem blacklist_suppresses_bodies (btf : Btf) (fuel : Nat) (st : EmitSt)
    (id lvl : Nat) :
    (∀ t : BtfStruct, names_blacklist_match t.name = true →
      emit_struct_fwd btf st id t = (false, [], st) ∧
      emit_struct_def btf (fuel+1) st id t lvl = Except.ok ([], st)) ∧
    (∀ t : BtfUnion, names_blacklist_match t.name = true →
      emit_union_fwd btf st id t = (false, [], st) ∧
      emit_union_def btf (fuel+1) st id t lvl = Except.ok ([], st)) ∧
    (∀ t : BtfEnum, names_blacklist_match t.name = true →
      emit_enum_def btf st id t lvl = ([], st)) ∧
    (∀ t : BtfFwd, names_blacklist_match t.name = true →
      emit_fwd_def btf st id t = ([], st)) ∧
    (∀ t : BtfTypedef, names_blacklist_match t.name = true →
      emit_typedef_def btf (fuel+1) st id t lvl = Except.ok ([], st)) := by
  refine ⟨fun t h => ⟨?_, ?_⟩, fun t h => ⟨?_, ?_⟩, fun t h => ?_,
    fun t h => ?_, fun t h => ?_⟩
  · unfold emit_struct_fwd
    simp [h]
  · rw [emit_struct_def]
    simp [h]
  · unfold emit_union_fwd
    simp [h]
  · rw [emit_union_def]
    simp [h]
  · unfold emit_enum_def
    simp [h]
  · unfold emit_fwd_def
    simp [h]
  · rw [emit_typedef_def]
    simp [h]

theorem blacklist_suppresses_bodies_witness :
    names_blacklist_match ("__builtin_va_list") = true ∧
    emit_enum_def GC2 init_emit_st 2 ⟨"__builtin_va_list", 32, []⟩ 0 =
      ([], init_emit_st) :=
  ⟨by decide,
   (blacklist_suppresses_bodies GC2 0 init_emit_st 2 0).2.2.1
     ⟨"__builtin_va_list", 32, []⟩ (by decide)⟩

/- Goodness of outputs: helper lemmas. -/

theorem out_good_nil : out_good [] := fun e he => absurd he (List.not_mem_nil e)

theorem out_good_append {a b : Out} (ha : out_good a) (hb : out_good b) :
    out_good (a ++ b) := by
  intro e he
  rcases List.mem_append.mp he with h | h
  · exact ha e h
  · exact hb e h

theorem out_good_txt (s : String) : out_good [OutEvt.txt s] := by
  intro e he
  have := List.mem_singleton.mp he
  subst this
  trivial

theorem out_good_map_txt {α : Type} (f : α → String) (l : List α) :
    out_good (l.map fun x => OutEvt.txt (f x)) := by
  intro e he
  obtain ⟨x, _, hx⟩ := List.mem_map.mp he
  subst hx
  trivial

theorem out_good_ite (c : Prop) [Decidable c] {a b : Out} (ha : out_good a)
    (hb : out_good b) : out_good (if c then a else b) := by
  split
  · exact ha
  · exact hb

theorem out_good_emit_struct_fwd (btf : Btf) (st : EmitSt) (id : Nat)
    (t : BtfStruct) (h : ¬ t.name = "") :
    out_good (emit_struct_fwd btf st id t).2.1 := by
  unfold emit_struct_fwd
  split
  · exact out_good_nil
  · intro e he
    have := List.mem_singleton.mp he
    subst this
    exact h

theorem out_good_emit_union_fwd (btf : Btf) (st : EmitSt) (id : Nat)
    (t : BtfUnion) (h : ¬ t.name = "") :
    out_good (emit_union_fwd btf st id t).2.1 := by
  unfold emit_union_fwd
  split
  · exact out_good_nil
  · intro e he
    have := List.mem_singleton.mp he
    subst this
    exact h

theorem out_good_enum_values_fold (btf : Btf) (id : Nat) (t : BtfEnum)
    (lvl : Nat) : ∀ vs st, out_good (enum_values_fold btf id t lvl vs st).1 := by
  intro vs
  induction vs with
  | nil => exact fun st => out_good_nil
  | cons v rest ih =>
    intro st
    rw [enum_values_fold]
    exact out_good_append (out_good_txt _) (ih _)

theorem out_good_emit_enum_def (btf : Btf) (st : EmitSt) (id : Nat)
    (t : BtfEnum) (lvl : Nat) : out_good (emit_enum_def btf st id t lvl).1 := by
  unfold emit_enum_def
  split
  · exact out_good_nil
  · split
    · exact out_good_txt _
    · exact out_good_append
        (out_good_append (out_good_txt _)
          (out_good_enum_values_fold btf id t lvl _ _))
        (out_good_txt _)

theorem out_good_emit_fwd_def (btf : Btf) (st : EmitSt) (id : Nat)
    (t : BtfFwd) : out_good (emit_fwd_def btf st id t).1 := by
  unfold emit_fwd_def
  split
  · exact out_good_nil
  · split
    · exact out_good_txt _
    · exact out_good_txt _

theorem out_good_emit_name (fname : String) (lp : Bool) :
    out_good (emit_name fname lp) := by
  unfold emit_name
  split
  · exact out_good_txt _
  · exact out_good_txt _

theorem out_good_emit_mods (btf : Btf) : ∀ c, out_good (emit_mods btf c).1 := by
  intro c
  induction c with
  | nil => exact out_good_nil
  | cons id rest ih =>
    rw [emit_mods]
    split
    · exact out_good_append (out_good_txt _) ih
    · exact out_good_append (out_good_txt _) ih
    · exact out_good_append (out_good_txt _) ih
    · exact out_good_nil

theorem out_good_emit_bit_padding (btf : Btf) (fuel offset : Nat)
    (m : BtfMember) (packed : Bool) (lvl : Nat) :
    out_good (emit_bit_padding btf fuel offset m packed lvl) := by
  unfold emit_bit_padding
  split
  · exact out_good_nil
  · dsimp only []
    split <;> split <;>
      first
        | exact out_good_nil
        | exact out_good_map_txt _ _




theorem except_pure_bind {α β : Type} (a : α) (f : α → Except String β) :
    ((Pure.pure a : Except String α) >>= f) = f a := rfl

/- The master goodness lemma for the declaration and forward emitters: any
   successful run produces only composite forward declarations with a
   nonempty original name. -/

theorem emit_good (btf : Btf) : ∀ fuel : Nat,
    (∀ st id fname lvl o st',
      emit_type_decl btf fuel st id fname lvl = Except.ok (o, st') → out_good o) ∧
    (∀ st stack lp fname lvl o st',
      emit_type_chain_go btf fuel st stack lp fname lvl = Except.ok (o, st') →
      out_good o) ∧
    (∀ st ps idx ac lv lvl o st',
      emit_params btf fuel st ps idx ac lv lvl = Except.ok (o, st') → out_good o) ∧
    (∀ st id t lvl o st',
      emit_struct_def btf fuel st id t lvl = Except.ok (o, st') → out_good o) ∧
    (∀ st ms off pk lvl o st',
      emit_struct_members btf fuel st ms off pk lvl = Except.ok (o, st') →
      out_good o) ∧
    (∀ st id t lvl o st',
      emit_union_def btf fuel st id t lvl = Except.ok (o, st') → out_good o) ∧
    (∀ st ms lvl o st',
      emit_union_members btf fuel st ms lvl = Except.ok (o, st') → out_good o) ∧
    (∀ st id t lvl o st',
      emit_typedef_def btf fuel st id t lvl = Except.ok (o, st') → out_good o) ∧
    (∀ st id cid d o st',
      emit_type_fwds btf fuel st id cid d = Except.ok (o, st') → out_good o) ∧
    (∀ st ids cid o st',
      emit_type_fwds_list btf fuel st ids cid = Except.ok (o, st') → out_good o) := by
  intro fuel
  induction fuel with
  | zero =>
    refine ⟨?_, ?_, ?_, ?_, ?_, ?_, ?_, ?_, ?_, ?_⟩
    · intro st id fname lvl o st' h
      rw [emit_type_decl] at h
      cases h
    · intro st stack lp fname lvl o st' h
      rw [emit_type_chain_go] at h
      cases h
    · intro st ps idx ac lv lvl o st' h
      rw [emit_params] at h
      cases h
    · intro st id t lvl o st' h
      rw [emit_struct_def] at h
      cases h
    · intro st ms off pk lvl o st' h
      rw [emit_struct_members] at h
      cases h
    · intro st id t lvl o st' h
      rw [emit_union_def] at h
      cases h
    · intro st ms lvl o st' h
      rw [emit_union_members] at h
      cases h
    · intro st id t lvl o st' h
      rw [emit_typedef_def] at h
      cases h
    · intro st id cid d o st' h
      rw [emit_type_fwds] at h
      cases h
    · intro st ids cid o st' h
      rw [emit_type_fwds_list] at h
      cases h
  | succ fuel ih =>
    obtain ⟨ihdecl, ihgo, ihpar, ihsdef, ihsmem, ihudef, ihumem, ihtd, ihfwds, ihfl⟩ := ih
    have hdecl : ∀ st id fname lvl o st',
        emit_type_decl btf (fuel+1) st id fname lvl = Except.ok (o, st') →
        out_good o := by
      intro st id fname lvl o st' h
      rw [emit_type_decl] at h
      split at h
      · cases h
      · rw [Except.ok.injEq, Prod.mk.injEq] at h
        obtain ⟨h1, _⟩ := h
        rw [← h1]
        exact out_good_txt _
      · exact ihgo _ _ _ _ _ _ _ h
    refine ⟨hdecl, ?_, ?_, ?_, ?_, ?_, ?_, ?_, ?_, ?_⟩
    -- emit_type_chain_go
    · intro st stack lp fname lvl o st' h
      cases stack with
      | nil =>
        rw [emit_type_chain_go] at h
        rw [Except.ok.injEq, Prod.mk.injEq] at h
        obtain ⟨h1, _⟩ := h
        rw [← h1]
        exact out_good_emit_name _ _
      | cons id rest =>
        rw [emit_type_chain_go] at h
        split at h
        -- Void
        · dsimp only [] at h
          rcases hr : emit_type_chain_go btf fuel st (emit_mods btf rest).2 false
              fname lvl with e | r
          · rw [hr, except_bind_error] at h
            cases h
          · rw [hr, except_bind_ok] at h
            rw [Except.ok.injEq, Prod.mk.injEq] at h
            obtain ⟨h1, _⟩ := h
            rw [← h1]
            exact out_good_append
              (out_good_append (out_good_emit_mods btf _) (out_good_txt _))
              (ihgo _ _ _ _ _ _ _ hr)
        -- Int
        · dsimp only [] at h
          rcases hr : emit_type_chain_go btf fuel st (emit_mods btf rest).2 false
              fname lvl with e | r
          · rw [hr, except_bind_error] at h
            cases h
          · rw [hr, except_bind_ok] at h
            rw [Except.ok.injEq, Prod.mk.injEq] at h
            obtain ⟨h1, _⟩ := h
            rw [← h1]
            exact out_good_append
              (out_good_append (out_good_emit_mods btf _) (out_good_txt _))
              (ihgo _ _ _ _ _ _ _ hr)
        -- Struct
        · rename_i t heq
          try dsimp only [] at h
          split at h
          · rename_i hname
            rcases hd : emit_struct_def btf fuel st id t lvl with e | d
            · rw [hd, except_bind_error] at h
              cases h
            · rw [hd, except_bind_ok] at h
              rcases hr : emit_type_chain_go btf fuel d.2 (emit_mods btf rest).2
                  false fname lvl with e | r
              · rw [hr, except_bind_error] at h
                cases h
              · rw [hr, except_bind_ok] at h
                rw [Except.ok.injEq, Prod.mk.injEq] at h
                obtain ⟨h1, _⟩ := h
                rw [← h1]
                exact out_good_append
                  (out_good_append (out_good_emit_mods btf _)
                    (ihsdef _ _ _ _ _ _ hd))
                  (ihgo _ _ _ _ _ _ _ hr)
          · rename_i hname
            rcases hr : emit_type_chain_go btf fuel
                (emit_struct_fwd btf st id t).2.2 (emit_mods btf rest).2 false
                fname lvl with e | r
            · rw [hr, except_bind_error] at h
              cases h
            · rw [hr, except_bind_ok] at h
              rw [Except.ok.injEq, Prod.mk.injEq] at h
              obtain ⟨h1, _⟩ := h
              rw [← h1]
              exact out_good_append
                (out_good_append (out_good_emit_mods btf _)
                  (out_good_emit_struct_fwd btf _ _ _ (by simpa using hname)))
                (ihgo _ _ _ _ _ _ _ hr)
        -- Union
        · rename_i t heq
          try dsimp only [] at h
          split at h
          · rename_i hname
            rcases hd : emit_union_def btf fuel st id t lvl with e | d
            · rw [hd, except_bind_error] at h
              cases h
            · rw [hd, except_bind_ok] at h
              rcases hr : emit_type_chain_go btf fuel d.2 (emit_mods btf rest).2
                  false fname lvl with e | r
              · rw [hr, except_bind_error] at h
                cases h
              · rw [hr, except_bind_ok] at h
                rw [Except.ok.injEq, Prod.mk.injEq] at h
                obtain ⟨h1, _⟩ := h
                rw [← h1]
                exact out_good_append
                  (out_good_append (out_good_emit_mods btf _)
                    (ihudef _ _ _ _ _ _ hd))
                  (ihgo _ _ _ _ _ _ _ hr)
          · rename_i hname
            rcases hr : emit_type_chain_go btf fuel
                (emit_union_fwd btf st id t).2.2 (emit_mods btf rest).2 false
                fname lvl with e | r
            · rw [hr, except_bind_error] at h
              cases h
            · rw [hr, except_bind_ok] at h
              rw [Except.ok.injEq, Prod.mk.injEq] at h
              obtain ⟨h1, _⟩ := h
              rw [← h1]
              exact out_good_append
                (out_good_append (out_good_emit_mods btf _)
                  (out_good_emit_union_fwd btf _ _ _ (by simpa using hname)))
                (ihgo _ _ _ _ _ _ _ hr)
        -- Enum
        · rename_i t heq
          try dsimp only [] at h
          split at h
          · rcases hr : emit_type_chain_go btf fuel
                (emit_enum_def btf st id t lvl).2 (emit_mods btf rest).2 false
                fname lvl with e | r
            · rw [hr, except_bind_error] at h
              cases h
            · rw [hr, except_bind_ok] at h
              rw [Except.ok.injEq, Prod.mk.injEq] at h
              obtain ⟨h1, _⟩ := h
              rw [← h1]
              exact out_good_append
                (out_good_append (out_good_emit_mods btf _)
                  (out_good_emit_enum_def btf _ _ _ _))
                (ihgo _ _ _ _ _ _ _ hr)
          · rcases hr : emit_type_chain_go btf fuel
                (resolve_name btf st id).2 (emit_mods btf rest).2 false
                fname lvl with e | r
            · rw [hr, except_bind_error] at h
              cases h
            · rw [hr, except_bind_ok] at h
              rw [Except.ok.injEq, Prod.mk.injEq] at h
              obtain ⟨h1, _⟩ := h
              rw [← h1]
              exact out_good_append
                (out_good_append (out_good_emit_mods btf _) (out_good_txt _))
                (ihgo _ _ _ _ _ _ _ hr)
        -- Fwd
        · rename_i t heq
          try dsimp only [] at h
          rcases hr : emit_type_chain_go btf fuel
              (emit_fwd_def btf st id t).2 (emit_mods btf rest).2 false
              fname lvl with e | r
          · rw [hr, except_bind_error] at h
            cases h
          · rw [hr, except_bind_ok] at h
            rw [Except.ok.injEq, Prod.mk.injEq] at h
            obtain ⟨h1, _⟩ := h
            rw [← h1]
            exact out_good_append
              (out_good_append (out_good_emit_mods btf _)
                (out_good_emit_fwd_def btf _ _ _))
              (ihgo _ _ _ _ _ _ _ hr)
        -- Typedef
        · dsimp only [] at h
          rcases hr : emit_type_chain_go btf fuel
              (resolve_name btf st id).2 (emit_mods btf rest).2 false
              fname lvl with e | r
          · rw [hr, except_bind_error] at h
            cases h
          · rw [hr, except_bind_ok] at h
            rw [Except.ok.injEq, Prod.mk.injEq] at h
            obtain ⟨h1, _⟩ := h
            rw [← h1]
            exact out_good_append
              (out_good_append (out_good_emit_mods btf _) (out_good_txt _))
              (ihgo _ _ _ _ _ _ _ hr)
        -- Ptr
        · rcases hr : emit_type_chain_go btf fuel st rest true fname lvl with e | r
          · rw [hr, except_bind_error] at h
            cases h
          · rw [hr, except_bind_ok] at h
            rw [Except.ok.injEq, Prod.mk.injEq] at h
            obtain ⟨h1, _⟩ := h
            rw [← h1]
            exact out_good_append (out_good_txt _) (ihgo _ _ _ _ _ _ _ hr)
        -- Volatile
        · rcases hr : emit_type_chain_go btf fuel st rest false fname lvl with e | r
          · rw [hr, except_bind_error] at h
            cases h
          · rw [hr, except_bind_ok] at h
            rw [Except.ok.injEq, Prod.mk.injEq] at h
            obtain ⟨h1, _⟩ := h
            rw [← h1]
            exact out_good_append (out_good_txt _) (ihgo _ _ _ _ _ _ _ hr)
        -- Const
        · rcases hr : emit_type_chain_go btf fuel st rest false fname lvl with e | r
          · rw [hr, except_bind_error] at h
            cases h
          · rw [hr, except_bind_ok] at h
            rw [Except.ok.injEq, Prod.mk.injEq] at h
            obtain ⟨h1, _⟩ := h
            rw [← h1]
            exact out_good_append (out_good_txt _) (ihgo _ _ _ _ _ _ _ hr)
        -- Restrict
        · rcases hr : emit_type_chain_go btf fuel st rest false fname lvl with e | r
          · rw [hr, except_bind_error] at h
            cases h
          · rw [hr, except_bind_ok] at h
            rw [Except.ok.injEq, Prod.mk.injEq] at h
            obtain ⟨h1, _⟩ := h
            rw [← h1]
            exact out_good_append (out_good_txt _) (ihgo _ _ _ _ _ _ _ hr)
        -- Array
        · rename_i t heq
          try dsimp only [] at h
          split at h
          · rw [Except.ok.injEq, Prod.mk.injEq] at h
            obtain ⟨h1, _⟩ := h
            rw [← h1]
            exact out_good_append (out_good_emit_name _ _) (out_good_txt _)
          · rcases hr : emit_type_chain_go btf fuel st (drop_quals btf rest) true
                fname lvl with e | r
            · rw [hr, except_bind_error] at h
              cases h
            · rw [hr, except_bind_ok] at h
              rw [Except.ok.injEq, Prod.mk.injEq] at h
              obtain ⟨h1, _⟩ := h
              rw [← h1]
              exact out_good_append
                (out_good_append
                  (out_good_append (out_good_txt _) (ihgo _ _ _ _ _ _ _ hr))
                  (out_good_txt _))
                (out_good_txt _)
        -- FuncProto
        · rename_i t heq
          try dsimp only [] at h
          split at h
          · rw [except_pure_bind] at h
            split at h
            · rcases hp : emit_params btf fuel st t.params 0 t.params.length
                  (match t.params.getLast? with
                   | some p => p.type_id == 0
                   | none => false) lvl with e | ps
              · rw [hp, except_bind_error] at h
                cases h
              · rw [hp, except_bind_ok] at h
                rw [Except.ok.injEq, Prod.mk.injEq] at h
                obtain ⟨h1, _⟩ := h
                rw [← h1]
                exact out_good_append
                  (out_good_append
                    (out_good_append
                      (out_good_append (out_good_emit_mods btf _)
                        (out_good_emit_name _ _))
                      (out_good_txt _))
                    (ihpar _ _ _ _ _ _ _ _ hp))
                  (out_good_txt _)
            · rw [except_pure_bind] at h
              rw [Except.ok.injEq, Prod.mk.injEq] at h
              obtain ⟨h1, _⟩ := h
              rw [← h1]
              exact out_good_append
                (out_good_append
                  (out_good_append
                    (out_good_append (out_good_emit_mods btf _)
                      (out_good_emit_name _ _))
                    (out_good_txt _))
                  out_good_nil)
                (out_good_txt _)
          · rcases hr : emit_type_chain_go btf fuel st (emit_mods btf rest).2 true
                fname lvl with e | r
            · rw [hr, except_bind_error] at h
              cases h
            · rw [hr, except_bind_ok, except_pure_bind] at h
              split at h
              · rcases hp : emit_params btf fuel r.2 t.params 0 t.params.length
                    (match t.params.getLast? with
                     | some p => p.type_id == 0
                     | none => false) lvl with e | ps
                · rw [hp, except_bind_error] at h
                  cases h
                · rw [hp, except_bind_ok] at h
                  rw [Except.ok.injEq, Prod.mk.injEq] at h
                  obtain ⟨h1, _⟩ := h
                  rw [← h1]
                  exact out_good_append
                    (out_good_append
                      (out_good_append
                        (out_good_append (out_good_emit_mods btf _)
                          (out_good_append
                            (out_good_append (out_good_txt _)
                              (ihgo _ _ _ _ _ _ _ hr))
                            (out_good_txt _)))
                        (out_good_txt _))
                      (ihpar _ _ _ _ _ _ _ _ hp))
                    (out_good_txt _)
              · rw [except_pure_bind] at h
                rw [Except.ok.injEq, Prod.mk.injEq] at h
                obtain ⟨h1, _⟩ := h
                rw [← h1]
                exact out_good_append
                  (out_good_append
                    (out_good_append
                      (out_good_append (out_good_emit_mods btf _)
                        (out_good_append
                          (out_good_append (out_good_txt _)
                            (ihgo _ _ _ _ _ _ _ hr))
                          (out_good_txt _)))
                      (out_good_txt _))
                    out_good_nil)
                  (out_good_txt _)
        -- Func
        · rcases hr : emit_type_chain_go btf fuel st rest false fname lvl with e | r
          · rw [hr, except_bind_error] at h
            cases h
          · rw [hr, except_bind_ok] at h
            rw [Except.ok.injEq, Prod.mk.injEq] at h
            obtain ⟨h1, _⟩ := h
            rw [← h1]
            exact out_good_append (out_good_txt _) (ihgo _ _ _ _ _ _ _ hr)
        -- Var
        · rcases hr : emit_type_chain_go btf fuel st rest false fname lvl with e | r
          · rw [hr, except_bind_error] at h
            cases h
          · rw [hr, except_bind_ok] at h
            rw [Except.ok.injEq, Prod.mk.injEq] at h
            obtain ⟨h1, _⟩ := h
            rw [← h1]
            exact out_good_append (out_good_txt _) (ihgo _ _ _ _ _ _ _ hr)
        -- Datasec
        · rcases hr : emit_type_chain_go btf fuel st rest false fname lvl with e | r
          · rw [hr, except_bind_error] at h
            cases h
          · rw [hr, except_bind_ok] at h
            rw [Except.ok.injEq, Prod.mk.injEq] at h
            obtain ⟨h1, _⟩ := h
            rw [← h1]
            exact out_good_append (out_good_txt _) (ihgo _ _ _ _ _ _ _ hr)
    -- emit_params
    · intro st ps idx ac lv lvl o st' h
      cases ps with
      | nil =>
        rw [emit_params] at h
        rw [Except.ok.injEq, Prod.mk.injEq] at h
        obtain ⟨h1, _⟩ := h
        rw [← h1]
        exact out_good_nil
      | cons p rest =>
        rw [emit_params] at h
        try dsimp only [] at h
        split at h
        · rcases hp : emit_params btf fuel st rest (idx+1) ac lv lvl with e | r
          · rw [hp, except_bind_error] at h
            cases h
          · rw [hp, except_bind_ok] at h
            rw [Except.ok.injEq, Prod.mk.injEq] at h
            obtain ⟨h1, _⟩ := h
            rw [← h1]
            exact out_good_append
              (out_good_append (out_good_ite _ (out_good_txt _) out_good_nil)
                (out_good_txt _))
              (ihpar _ _ _ _ _ _ _ _ hp)
        · rcases hd : emit_type_decl btf fuel st p.type_id p.name lvl with e | d
          · rw [hd, except_bind_error] at h
            cases h
          · rw [hd, except_bind_ok] at h
            rcases hp : emit_params btf fuel d.2 rest (idx+1) ac lv lvl with e | r
            · rw [hp, except_bind_error] at h
              cases h
            · rw [hp, except_bind_ok] at h
              rw [Except.ok.injEq, Prod.mk.injEq] at h
              obtain ⟨h1, _⟩ := h
              rw [← h1]
              exact out_good_append
                (out_good_append (out_good_ite _ (out_good_txt _) out_good_nil)
                  (ihdecl _ _ _ _ _ _ hd))
                (ihpar _ _ _ _ _ _ _ _ hp)
    -- emit_struct_def
    · intro st id t lvl o st' h
      rw [emit_struct_def] at h
      split at h
      · rw [Except.ok.injEq, Prod.mk.injEq] at h
        obtain ⟨h1, _⟩ := h
        rw [← h1]
        exact out_good_nil
      · dsimp only [] at h
        rcases hm : emit_struct_members btf fuel (resolve_name btf st id).2
            t.members 0 (is_struct_packed btf fuel id t) lvl with e | m
        · rw [hm, except_bind_error] at h
          cases h
        · rw [hm, except_bind_ok] at h
          rw [Except.ok.injEq, Prod.mk.injEq] at h
          obtain ⟨h1, _⟩ := h
          rw [← h1]
          exact out_good_append
            (out_good_append
              (out_good_append
                (out_good_append (out_good_txt _) (ihsmem _ _ _ _ _ _ _ hm))
                (out_good_ite _ out_good_nil (out_good_txt _)))
              (out_good_txt _))
            (out_good_ite _ (out_good_txt _) out_good_nil)
    -- emit_struct_members
    · intro st ms off pk lvl o st' h
      cases ms with
      | nil =>
        rw [emit_struct_members] at h
        rw [Except.ok.injEq, Prod.mk.injEq] at h
        obtain ⟨h1, _⟩ := h
        rw [← h1]
        exact out_good_nil
      | cons m rest =>
        rw [emit_struct_members] at h
        try dsimp only [] at h
        rcases hd : emit_type_decl btf fuel st m.type_id m.name (lvl+1) with e | d
        · rw [hd, except_bind_error] at h
          cases h
        · rw [hd, except_bind_ok] at h
          try dsimp only [] at h
          rcases hm : emit_struct_members btf fuel d.2 rest
              (if m.bit_size == 0 then
                m.bit_offset + btf.get_size_of fuel m.type_id * 8
               else m.bit_offset + m.bit_size) pk lvl with e | r
          · rw [hm, except_bind_error] at h
            cases h
          · rw [hm, except_bind_ok] at h
            rw [Except.ok.injEq, Prod.mk.injEq] at h
            obtain ⟨h1, _⟩ := h
            rw [← h1]
            exact out_good_append
              (out_good_append
                (out_good_append
                  (out_good_append
                    (out_good_append (out_good_emit_bit_padding btf _ _ _ _ _)
                      (out_good_txt _))
                    (ihdecl _ _ _ _ _ _ hd))
                  (out_good_ite _ out_good_nil (out_good_txt _)))
                (out_good_txt _))
              (ihsmem _ _ _ _ _ _ _ hm)
    -- emit_union_def
    · intro st id t lvl o st' h
      rw [emit_union_def] at h
      split at h
      · rw [Except.ok.injEq, Prod.mk.injEq] at h
        obtain ⟨h1, _⟩ := h
        rw [← h1]
        exact out_good_nil
      · dsimp only [] at h
        rcases hm : emit_union_members btf fuel (resolve_name btf st id).2
            t.members lvl with e | m
        · rw [hm, except_bind_error] at h
          cases h
        · rw [hm, except_bind_ok] at h
          rw [Except.ok.injEq, Prod.mk.injEq] at h
          obtain ⟨h1, _⟩ := h
          rw [← h1]
          exact out_good_append
            (out_good_append
              (out_good_append (out_good_txt _) (ihumem _ _ _ _ _ hm))
              (out_good_ite _ out_good_nil (out_good_txt _)))
            (out_good_txt _)
    -- emit_union_members
    · intro st ms lvl o st' h
      cases ms with
      | nil =>
        rw [emit_union_members] at h
        rw [Except.ok.injEq, Prod.mk.injEq] at h
        obtain ⟨h1, _⟩ := h
        rw [← h1]
        exact out_good_nil
      | cons m rest =>
        rw [emit_union_members] at h
        rcases hd : emit_type_decl btf fuel st m.type_id m.name (lvl+1) with e | d
        · rw [hd, except_bind_error] at h
          cases h
        · rw [hd, except_bind_ok] at h
          try dsimp only [] at h
          rcases hm : emit_union_members btf fuel d.2 rest lvl with e | r
          · rw [hm, except_bind_error] at h
            cases h
          · rw [hm, except_bind_ok] at h
            rw [Except.ok.injEq, Prod.mk.injEq] at h
            obtain ⟨h1, _⟩ := h
            rw [← h1]
            exact out_good_append
              (out_good_append
                (out_good_append
                  (out_good_append (out_good_txt _) (ihdecl _ _ _ _ _ _ hd))
                  (out_good_ite _ (out_good_txt _) out_good_nil))
                (out_good_txt _))
              (ihumem _ _ _ _ _ hm)
    -- emit_typedef_def
    · intro st id t lvl o st' h
      rw [emit_typedef_def] at h
      split at h
      · rw [Except.ok.injEq, Prod.mk.injEq] at h
        obtain ⟨h1, _⟩ := h
        rw [← h1]
        exact out_good_nil
      · dsimp only [] at h
        rcases hd : emit_type_decl btf fuel (resolve_name btf st id).2 t.type_id
            (resolve_name btf st id).1 lvl with e | d
        · rw [hd, except_bind_error] at h
          cases h
        · rw [hd, except_bind_ok] at h
          rw [Except.ok.injEq, Prod.mk.injEq] at h
          obtain ⟨h1, _⟩ := h
          rw [← h1]
          exact out_good_append (out_good_txt _) (ihdecl _ _ _ _ _ _ hd)
    -- emit_type_fwds
    · intro st id cid d o st' h
      rw [emit_type_fwds] at h
      split at h
      -- Emitted
      · rw [Except.ok.injEq, Prod.mk.injEq] at h
        obtain ⟨h1, _⟩ := h
        rw [← h1]
        exact out_good_nil
      -- Emitting
      · split at h
        · rename_i t heq
          split at h
          · rw [Except.ok.injEq, Prod.mk.injEq] at h
            obtain ⟨h1, _⟩ := h
            rw [← h1]
            exact out_good_nil
          · split at h
            · rename_i hname
              try dsimp only [] at h
              rw [Except.ok.injEq, Prod.mk.injEq] at h
              obtain ⟨h1, _⟩ := h
              rw [← h1]
              exact out_good_ite _
                (out_good_append
                  (out_good_emit_struct_fwd btf _ _ _ (by simpa using hname))
                  (out_good_txt _))
                (out_good_emit_struct_fwd btf _ _ _ (by simpa using hname))
            · cases h
        · rename_i t heq
          split at h
          · rw [Except.ok.injEq, Prod.mk.injEq] at h
            obtain ⟨h1, _⟩ := h
            rw [← h1]
            exact out_good_nil
          · split at h
            · rename_i hname
              try dsimp only [] at h
              rw [Except.ok.injEq, Prod.mk.injEq] at h
              obtain ⟨h1, _⟩ := h
              rw [← h1]
              exact out_good_ite _
                (out_good_append
                  (out_good_emit_union_fwd btf _ _ _ (by simpa using hname))
                  (out_good_txt _))
                (out_good_emit_union_fwd btf _ _ _ (by simpa using hname))
            · cases h
        · rename_i t heq
          split at h
          · rw [Except.ok.injEq, Prod.mk.injEq] at h
            obtain ⟨h1, _⟩ := h
            rw [← h1]
            exact out_good_nil
          · rcases hd : emit_typedef_def btf fuel st id t 0 with e | td
            · rw [hd, except_bind_error] at h
              cases h
            · rw [hd, except_bind_ok] at h
              rw [Except.ok.injEq, Prod.mk.injEq] at h
              obtain ⟨h1, _⟩ := h
              rw [← h1]
              exact out_good_append (ihtd _ _ _ _ _ _ hd) (out_good_txt _)
        · rw [Except.ok.injEq, Prod.mk.injEq] at h
          obtain ⟨h1, _⟩ := h
          rw [← h1]
          exact out_good_nil
      -- NotEmitted
      · split at h
        -- Func
        · rw [Except.ok.injEq, Prod.mk.injEq] at h
          obtain ⟨h1, _⟩ := h
          rw [← h1]
          exact out_good_nil
        -- Var
        · rw [Except.ok.injEq, Prod.mk.injEq] at h
          obtain ⟨h1, _⟩ := h
          rw [← h1]
          exact out_good_nil
        -- Datasec
        · rw [Except.ok.injEq, Prod.mk.injEq] at h
          obtain ⟨h1, _⟩ := h
          rw [← h1]
          exact out_good_nil
        -- Void
        · rw [Except.ok.injEq, Prod.mk.injEq] at h
          obtain ⟨h1, _⟩ := h
          rw [← h1]
          exact out_good_nil
        -- Int
        · rw [Except.ok.injEq, Prod.mk.injEq] at h
          obtain ⟨h1, _⟩ := h
          rw [← h1]
          exact out_good_nil
        -- Volatile
        · exact ihfwds _ _ _ _ _ _ h
        -- Const
        · exact ihfwds _ _ _ _ _ _ h
        -- Restrict
        · exact ihfwds _ _ _ _ _ _ h
        -- Ptr
        · exact ihfwds _ _ _ _ _ _ h
        -- Array
        · exact ihfwds _ _ _ _ _ _ h
        -- FuncProto
        · rename_i t heq
          rcases hf : emit_type_fwds btf fuel st t.res_type_id cid false with e | r1
          · rw [hf, except_bind_error] at h
            cases h
          · rw [hf, except_bind_ok] at h
            rcases hl : emit_type_fwds_list btf fuel r1.2
                (t.params.map fun p => p.type_id) cid with e | r2
            · rw [hl, except_bind_error] at h
              cases h
            · rw [hl, except_bind_ok] at h
              rw [Except.ok.injEq, Prod.mk.injEq] at h
              obtain ⟨h1, _⟩ := h
              rw [← h1]
              exact out_good_append (ihfwds _ _ _ _ _ _ hf)
                (ihfl _ _ _ _ _ hl)
        -- Struct
        · rename_i t heq
          try dsimp only [] at h
          split at h
          · rcases hl : emit_type_fwds_list btf fuel
                (set_emit_state st id EmitState.Emitting)
                (t.members.map fun m => m.type_id)
                (if t.name == "" then cid else id) with e | r
            · rw [hl, except_bind_error] at h
              cases h
            · rw [hl, except_bind_ok] at h
              rw [Except.ok.injEq, Prod.mk.injEq] at h
              obtain ⟨h1, _⟩ := h
              rw [← h1]
              exact ihfl _ _ _ _ _ hl
          · rename_i hcond
            split at h
            · rename_i hfwd
              rw [Except.ok.injEq, Prod.mk.injEq] at h
              obtain ⟨h1, _⟩ := h
              rw [← h1]
              have hname : ¬ t.name = "" := by
                intro hc
                apply hcond
                simp [hc]
              exact out_good_ite _
                (out_good_append (out_good_emit_struct_fwd btf _ _ _ hname)
                  (out_good_txt _))
                (out_good_emit_struct_fwd btf _ _ _ hname)
            · rw [Except.ok.injEq, Prod.mk.injEq] at h
              obtain ⟨h1, _⟩ := h
              rw [← h1]
              exact out_good_nil
        -- Union
        · rename_i t heq
          try dsimp only [] at h
          split at h
          · rcases hl : emit_type_fwds_list btf fuel
                (set_emit_state st id EmitState.Emitting)
                (t.members.map fun m => m.type_id)
                (if t.name == "" then cid else id) with e | r
            · rw [hl, except_bind_error] at h
              cases h
            · rw [hl, except_bind_ok] at h
              rw [Except.ok.injEq, Prod.mk.injEq] at h
              obtain ⟨h1, _⟩ := h
              rw [← h1]
              exact ihfl _ _ _ _ _ hl
          · rename_i hcond
            split at h
            · rename_i hfwd
              rw [Except.ok.injEq, Prod.mk.injEq] at h
              obtain ⟨h1, _⟩ := h
              rw [← h1]
              have hname : ¬ t.name = "" := by
                intro hc
                apply hcond
                simp [hc]
              exact out_good_ite _
                (out_good_append (out_good_emit_union_fwd btf _ _ _ hname)
                  (out_good_txt _))
                (out_good_emit_union_fwd btf _ _ _ hname)
            · rw [Except.ok.injEq, Prod.mk.injEq] at h
              obtain ⟨h1, _⟩ := h
              rw [← h1]
              exact out_good_nil
        -- Enum
        · rename_i t heq
          try dsimp only [] at h
          split at h
          · rw [Except.ok.injEq, Prod.mk.injEq] at h
            obtain ⟨h1, _⟩ := h
            rw [← h1]
            exact out_good_append (out_good_emit_enum_def btf _ _ _ _)
              (out_good_txt _)
          · rw [Except.ok.injEq, Prod.mk.injEq] at h
            obtain ⟨h1, _⟩ := h
            rw [← h1]
            exact out_good_nil
        -- Fwd
        · dsimp only [] at h
          rcases hd : emit_type_decl btf fuel
              (set_emit_state st id EmitState.Emitting) id ("") 0 with e | dd
          · rw [hd, except_bind_error] at h
            cases h
          · rw [hd, except_bind_ok] at h
            rw [Except.ok.injEq, Prod.mk.injEq] at h
            obtain ⟨h1, _⟩ := h
            rw [← h1]
            exact out_good_append (ihdecl _ _ _ _ _ _ hd) (out_good_txt _)
        -- Typedef
        · rename_i t heq
          try dsimp only [] at h
          rcases hf : emit_type_fwds btf fuel
              (set_emit_state st id EmitState.Emitting) t.type_id id false
              with e | r1
          · rw [hf, except_bind_error] at h
            cases h
          · rw [hf, except_bind_ok] at h
            split at h
            · rcases hd : emit_typedef_def btf fuel r1.2 id t 0 with e | td
              · rw [hd, except_bind_error] at h
                cases h
              · rw [hd, except_bind_ok] at h
                rw [Except.ok.injEq, Prod.mk.injEq] at h
                obtain ⟨h1, _⟩ := h
                rw [← h1]
                exact out_good_append
                  (out_good_append (ihfwds _ _ _ _ _ _ hf)
                    (ihtd _ _ _ _ _ _ hd))
                  (out_good_txt _)
            · rw [Except.ok.injEq, Prod.mk.injEq] at h
              obtain ⟨h1, _⟩ := h
              rw [← h1]
              exact ihfwds _ _ _ _ _ _ hf
    -- emit_type_fwds_list
    · intro st ids cid o st' h
      cases ids with
      | nil =>
        rw [emit_type_fwds_list] at h
        rw [Except.ok.injEq, Prod.mk.injEq] at h
        obtain ⟨h1, _⟩ := h
        rw [← h1]
        exact out_good_nil
      | cons x rest =>
        rw [emit_type_fwds_list] at h
        rcases hf : emit_type_fwds btf fuel st x cid false with e | r1
        · rw [hf, except_bind_error] at h
          cases h
        · rw [hf, except_bind_ok] at h
          rcases hl : emit_type_fwds_list btf fuel r1.2 rest cid with e | r2
          · rw [hl, except_bind_error] at h
            cases h
          · rw [hl, except_bind_ok] at h
            rw [Except.ok.injEq, Prod.mk.injEq] at h
            obtain ⟨h1, _⟩ := h
            rw [← h1]
            exact out_good_append (ihfwds _ _ _ _ _ _ hf) (ihfl _ _ _ _ _ hl)




theorem emit_type_def_good (btf : Btf) (fuel : Nat) (st : EmitSt) (id : Nat)
    (o : Out) (st' : EmitSt)
    (h : emit_type_def btf fuel st id = Except.ok (o, st')) : out_good o := by
  obtain ⟨g1, g2, g3, g4, g5, g6, g7, g8, g9, g10⟩ := emit_good btf fuel
  unfold emit_type_def at h
  split at h
  · cases h
  · rw [Except.ok.injEq, Prod.mk.injEq] at h
    obtain ⟨h1, _⟩ := h
    rw [← h1]
    exact out_good_nil
  · split at h
    -- Struct
    · rename_i t heq
      split at h
      · rcases hd : emit_struct_def btf fuel st id t 0 with e | d
        · rw [hd, except_bind_error] at h
          cases h
        · rw [hd, except_bind_ok] at h
          rw [Except.ok.injEq, Prod.mk.injEq] at h
          obtain ⟨h1, _⟩ := h
          rw [← h1]
          exact out_good_append (g4 _ _ _ _ _ _ hd) (out_good_txt _)
      · cases h
    -- Union
    · rename_i t heq
      split at h
      · rcases hd : emit_union_def btf fuel st id t 0 with e | d
        · rw [hd, except_bind_error] at h
          cases h
        · rw [hd, except_bind_ok] at h
          rw [Except.ok.injEq, Prod.mk.injEq] at h
          obtain ⟨h1, _⟩ := h
          rw [← h1]
          exact out_good_append (g6 _ _ _ _ _ _ hd) (out_good_txt _)
      · cases h
    -- Enum
    · rename_i t heq
      split at h
      · try dsimp only [] at h
        rw [Except.ok.injEq, Prod.mk.injEq] at h
        obtain ⟨h1, _⟩ := h
        rw [← h1]
        exact out_good_append (out_good_emit_enum_def btf _ _ _ _) (out_good_txt _)
      · cases h
    -- Fwd
    · rename_i t heq
      split at h
      · try dsimp only [] at h
        rw [Except.ok.injEq, Prod.mk.injEq] at h
        obtain ⟨h1, _⟩ := h
        rw [← h1]
        exact out_good_append (out_good_emit_fwd_def btf _ _ _) (out_good_txt _)
      · cases h
    -- Typedef
    · rename_i t heq
      split at h
      · split at h
        · rcases hd : emit_typedef_def btf fuel st id t 0 with e | d
          · rw [hd, except_bind_error] at h
            cases h
          · rw [hd, except_bind_ok] at h
            rw [Except.ok.injEq, Prod.mk.injEq] at h
            obtain ⟨h1, _⟩ := h
            rw [← h1]
            exact out_good_append (g8 _ _ _ _ _ _ hd) (out_good_txt _)
        · rw [Except.ok.injEq, Prod.mk.injEq] at h
          obtain ⟨h1, _⟩ := h
          rw [← h1]
          exact out_good_nil
      · cases h
    · cases h

theorem emit_pass_good (btf : Btf) (fuel : Nat) :
    ∀ ids st o st', emit_pass btf fuel ids st = Except.ok (o, st') →
      out_good o := by
  intro ids
  induction ids with
  | nil =>
    intro st o st' h
    rw [emit_pass] at h
    rw [Except.ok.injEq, Prod.mk.injEq] at h
    obtain ⟨h1, _⟩ := h
    rw [← h1]
    exact out_good_nil
  | cons id rest ih =>
    intro st o st' h
    rw [emit_pass] at h
    split at h
    · rcases h1 : emit_type_fwds btf fuel st id id true with e | r1
      · rw [h1, except_bind_error] at h
        cases h
      · rw [h1, except_bind_ok] at h
        rcases h2 : emit_type_def btf fuel r1.2 id with e | r2
        · rw [h2, except_bind_error] at h
          cases h
        · rw [h2, except_bind_ok] at h
          rcases h3 : emit_pass btf fuel rest r2.2 with e | r3
          · rw [h3, except_bind_error] at h
            cases h
          · rw [h3, except_bind_ok] at h
            rw [Except.ok.injEq, Prod.mk.injEq] at h
            obtain ⟨ho, _⟩ := h
            rw [← ho]
            exact out_good_append
              (out_good_append
                ((emit_good btf fuel).2.2.2.2.2.2.2.2.1 _ _ _ _ _ _ h1)
                (emit_type_def_good btf fuel _ _ _ _ h2))
              (ih _ _ _ h3)
    · exact ih _ _ _ h

/-- Claim C7 (confirmed): in every run of the emission side of dump_types,
every composite forward declaration event carries a nonempty original
name, so no forward declaration is ever emitted for an anonymous struct or
union; an anonymous composite re-entered where a forward declaration would
be required makes emit_type_fwds fail fatally, and anonymous composites
otherwise appear inline in full. -/
theorem no_anonymous_composite_fwd :
    (∀ (btf : Btf) (fuel : Nat) (order : List Nat) (st : EmitSt),
      out_good (emit_out (emit_pass btf fuel order st))) ∧
    (∀ (btf : Btf) (fuel : Nat) (filter : Nat → BtfType → Bool),
      out_good (dump_out (dump_types btf fuel filter))) := by
  have hpass : ∀ (btf : Btf) (fuel : Nat) (order : List Nat) (st : EmitSt),
      out_good (emit_out (emit_pass btf fuel order st)) := by
    intro btf fuel order st
    rcases h : emit_pass btf fuel order st with e | r
    · exact out_good_nil
    · exact emit_pass_good btf fuel order st r.1 r.2 (by rw [h])
  refine ⟨hpass, ?_⟩
  intro btf fuel filter
  unfold dump_types
  rcases ho : order_pass btf fuel filter with e | st
  · rw [except_bind_error]
    exact out_good_nil
  · rw [except_bind_ok]
    rcases hp : emit_pass btf fuel st.order init_emit_st with e | r
    · rw [except_bind_error]
      exact out_good_nil
    · rw [except_bind_ok]
      exact emit_pass_good btf fuel st.order init_emit_st r.1 r.2 (by rw [hp])

end Btfdump
